import Mathlib

/-!
Shallow embedding of the elevator dispatch engine and actor state machines of
the rise-api repository (src/elevator/VirtualElevator.js, src/client/VirtualRobot.js,
src/client/VirtualTenant.js, and the alternate VirtualElevator variant that carries
the prioritization-mode dispatch logic), together with theorems settling the
specification claims about them.

Modelling conventions:
* JS numbers used as floor indices are modelled as `Int`; battery quantities and
  virtual-time stamps as `ℚ` (the claims checked here do not depend on binary
  floating-point rounding).
* A JS `Set` of floors is modelled as an insertion-ordered duplicate-free
  `List Int` (`Set.add` appends when absent, iteration follows insertion order).
* `setTimeout` callbacks are modelled as explicit events of a step function:
  each event performs the synchronous body of one callback.  Wall-clock ids
  (`Date.now()`-derived identifiers, `Math.random()` default destinations) are
  supplied as explicit oracle arguments of the corresponding event.
* The CANopen object-dictionary bitfield writes mirror fields that are already
  part of the state and are not separately modelled.
-/

namespace VE

/-- Direction field of the elevator state (source: `state.direction`). -/
inductive Dir
  | UP
  | DOWN
  | STATIONARY
  deriving DecidableEq, Repr

/-- Door state field (source: `state.doorState`). -/
inductive DoorSt
  | CLOSED
  | OPEN
  | OPENING
  | CLOSING
  deriving DecidableEq, Repr

/-- Occupancy record pushed by `addOccupant`. -/
structure Occupant where
  id : String
  type : String
  enteredAt : Int
  destination : Int
  deriving DecidableEq, Repr

/-- Waiting-tenant record pushed by `requestFloor` (timestamp omitted: it is a
wall-clock value that is never compared). -/
structure WaitingTenant where
  id : String
  floor : Int
  destination : Option Int
  deriving DecidableEq, Repr

/-- Entry of `pendingBotRequests` / `pendingTenantRequests` (timestamp omitted). -/
structure PendingReq where
  floor : Int
  occupantId : Option String
  destination : Option Int
  deriving DecidableEq, Repr

/-- Constructor configuration of `VirtualElevator` (timing fields omitted: the
event model abstracts timer durations). -/
structure Config where
  floors : Int
  maxOccupants : Nat
  deriving DecidableEq, Repr

/-- The mutable state of one car (source: `this.state` plus the tracking fields
`waitingTenants`, `pendingBotRequests`, `pendingTenantRequests` and the lazily
initialised statistics counters, modelled as starting at 0). -/
structure EState where
  currentFloor : Int
  targetFloor : Option Int
  doorState : DoorSt
  direction : Dir
  inMotion : Bool
  emergencyState : Bool
  doorObstruction : Bool
  floorRequests : List Int
  occupants : List Occupant
  waitingTenants : List WaitingTenant
  pendingBotRequests : List PendingReq
  pendingTenantRequests : List PendingReq
  totalRequests : Nat
  botRequests : Nat
  tenantRequests : Nat
  deriving DecidableEq, Repr

/-- Initial state built by the constructor. -/
def initState : EState where
  currentFloor := 1
  targetFloor := none
  doorState := .CLOSED
  direction := .STATIONARY
  inMotion := false
  emergencyState := false
  doorObstruction := false
  floorRequests := []
  occupants := []
  waitingTenants := []
  pendingBotRequests := []
  pendingTenantRequests := []
  totalRequests := 0
  botRequests := 0
  tenantRequests := 0

/-- `Set.add` on the insertion-ordered floor set. -/
def addReq (l : List Int) (f : Int) : List Int :=
  if f ∈ l then l else l ++ [f]

/-- `Set.delete` on the insertion-ordered floor set. -/
def delReq (l : List Int) (f : Int) : List Int :=
  l.filter (fun x => x ≠ f)

/-- `isOccupantInElevator(occupantId)`: `occupants.some(o => o.id === occupantId)`,
where the argument may be `null` (`none`). -/
def isOccupantInElevator (s : EState) (oid : Option String) : Bool :=
  s.occupants.any (fun o => some o.id == oid)

/-- The loop of the STATIONARY branch of `updateTargetFloor`: runs over the
request list carrying `(closestFloor, minDistance)` and replaces the pair on a
strictly smaller distance. -/
def closestLoop (cur : Int) : List Int → Int × Int → Int × Int
  | [], acc => acc
  | f :: rest, (c, m) =>
      closestLoop cur rest (if |f - cur| < m then (f, |f - cur|) else (c, m))

/-- Synchronous part of `openDoor()`: early return when already OPEN, otherwise
the door starts OPENING (completion is the separate `doorOpened` event). -/
def openDoor (s : EState) : EState :=
  if s.doorState = .OPEN then s else { s with doorState := .OPENING }

/-- Synchronous part of `closeDoor()`: early return when already CLOSED,
otherwise the door starts CLOSING (completion is the `doorClosed` event). -/
def closeDoor (s : EState) : EState :=
  if s.doorState = .CLOSED then s else { s with doorState := .CLOSING }

/-- Synchronous part of `startMovement()`: sets `inMotion` and schedules the
arrival callback (the `arrive` event). -/
def startMovement (s : EState) : EState :=
  { s with inMotion := true }

/-- Synchronous part of `moveToTargetFloor()`. -/
def moveToTargetFloor (s : EState) : EState :=
  match s.targetFloor with
  | none => s
  | some t =>
    if s.currentFloor = t then
      if s.doorState = .CLOSED then openDoor s else s
    else
      let dir : Dir := if t > s.currentFloor then .UP else .DOWN
      let s' : EState := { s with direction := dir }
      if s'.doorState = .OPEN ∨ s'.doorState = .OPENING then
        -- close the door first; `startMovement` runs 2000ms later
        -- (the `delayedStart` event)
        closeDoor s'
      else
        startMovement s'

/-- Fallback tail of `updateTargetFloor` (reached when a directional branch
finds no floor strictly ahead and none strictly behind). -/
def updFallback (s : EState) : EState :=
  match s.floorRequests with
  | f :: _ =>
      let dir : Dir :=
        if f > s.currentFloor then .UP
        else if f = s.currentFloor then .STATIONARY
        else .DOWN
      moveToTargetFloor { s with targetFloor := some f, direction := dir }
  | [] => { s with targetFloor := none, direction := .STATIONARY }

/-- `updateTargetFloor()` of the primary `VirtualElevator.js` (selective
collective operation; this file has no prioritization-mode branch). -/
def updateTargetFloor (s : EState) : EState :=
  if s.floorRequests = [] then
    { s with targetFloor := none, direction := .STATIONARY }
  else if s.inMotion then s
  else if s.targetFloor ≠ none ∧ s.targetFloor ≠ some s.currentFloor then
    moveToTargetFloor s
  else
    match s.direction with
    | .UP =>
        let floorsAbove :=
          (s.floorRequests.filter (fun f => s.currentFloor < f)).insertionSort (· ≤ ·)
        match floorsAbove with
        | a :: _ => moveToTargetFloor { s with targetFloor := some a }
        | [] =>
          let floorsBelow :=
            (s.floorRequests.filter (fun f => f < s.currentFloor)).insertionSort (· ≥ ·)
          match floorsBelow with
          | b :: _ =>
              moveToTargetFloor { s with direction := .DOWN, targetFloor := some b }
          | [] => updFallback s
    | .DOWN =>
        let floorsBelow :=
          (s.floorRequests.filter (fun f => f < s.currentFloor)).insertionSort (· ≥ ·)
        match floorsBelow with
        | b :: _ => moveToTargetFloor { s with targetFloor := some b }
        | [] =>
          let floorsAbove :=
            (s.floorRequests.filter (fun f => s.currentFloor < f)).insertionSort (· ≤ ·)
          match floorsAbove with
          | a :: _ =>
              moveToTargetFloor { s with direction := .UP, targetFloor := some a }
          | [] => updFallback s
    | .STATIONARY =>
        match s.floorRequests with
        | [] => s  -- unreachable: guarded by the emptiness check above
        | r0 :: _ =>
          let p := closestLoop s.currentFloor s.floorRequests (r0, |r0 - s.currentFloor|)
          let c := p.1
          let dir : Dir :=
            if c > s.currentFloor then .UP
            else if c = s.currentFloor then .STATIONARY
            else .DOWN
          moveToTargetFloor { s with direction := dir, targetFloor := some c }

/-- `addOccupant(occupantId, type, destination)`.  `rnd` is the oracle for the
random default destination `Math.floor(Math.random()*(floors-1))+2` used for a
missing destination when boarding at the lobby. -/
def addOccupant (s : EState) (occupantId : String) (ty : String)
    (destination : Option Int) (rnd : Int) : EState :=
  if isOccupantInElevator s (some occupantId) then s
  else
    let dest : Int :=
      match destination with
      | some d => d
      | none => if s.currentFloor = 1 then rnd else 1
    { s with
      occupants := s.occupants ++ [⟨occupantId, ty, s.currentFloor, dest⟩]
      floorRequests := addReq s.floorRequests dest }

/-- `cleanupStaleRequests()`: drop the current floor from `floorRequests`, then
drop every remaining floor that is neither the current floor nor an occupant
destination nor the floor of a waiting tenant. -/
def cleanupStaleRequests (s : EState) : EState :=
  let fr1 :=
    if s.currentFloor ∈ s.floorRequests then delReq s.floorRequests s.currentFloor
    else s.floorRequests
  let occupantDestinations := s.occupants.map (fun o => o.destination)
  let staleRequests := fr1.filter
    (fun f => f ≠ s.currentFloor ∧ f ∉ occupantDestinations)
  let fr2 := fr1.filter
    (fun f => ¬(f ∈ staleRequests ∧ (s.waitingTenants.filter (fun t => t.floor = f)) = []))
  { s with floorRequests := fr2 }

/-- `removeOccupant(occupantId)`: splice out the first occupant with that id,
drop it from the waiting tenants, then clean up stale requests. -/
def removeOccupant (s : EState) (oid : String) : EState :=
  if s.occupants.any (fun o => o.id == oid) then
    cleanupStaleRequests
      { s with
        occupants := s.occupants.eraseP (fun o => o.id == oid)
        waitingTenants := s.waitingTenants.filter (fun t => t.id ≠ oid) }
  else s

/-- `setOccupantDestination(occupantId, destinationFloor)`. -/
def setOccupantDestination (s : EState) (oid : String) (d : Int) : EState :=
  if s.occupants.any (fun o => o.id == oid) then
    { s with
      occupants := s.occupants.map (fun o => if o.id = oid then { o with destination := d } else o)
      floorRequests := addReq s.floorRequests d }
  else s

/-- `setEmergencyState(emergency)`: when raised, cancels the pending travel
timer (the `arrive` event is gated on `inMotion`), clears `inMotion` and resets
the direction to STATIONARY. -/
def setEmergencyState (s : EState) (emergency : Bool) : EState :=
  let s' := { s with emergencyState := emergency }
  if emergency then
    { s' with inMotion := false, direction := .STATIONARY }
  else s'

/-- `setDoorObstruction(obstructed)`. -/
def setDoorObstruction (s : EState) (obstructed : Bool) : EState :=
  let s' := { s with doorObstruction := obstructed }
  if obstructed ∧ s'.doorState = .CLOSING then openDoor s' else s'

/-- Shared tail of `requestFloor` (statistics counters, `floorRequests.add`,
pending-queue push, and the conditional immediate `updateTargetFloor`); the
call always returns `true` from this point. -/
def requestFloorRest (s : EState) (floorNumber : Int)
    (requesterType : Option String) (occupantId : Option String)
    (destination : Option Int) (_gen : String) : EState × Bool :=
  -- statistics counters (lazily initialised to 0 in the source)
  let s1 :=
    match requesterType with
    | none => s
    | some rt =>
        let s' := { s with totalRequests := s.totalRequests + 1 }
        if rt = "bot" then { s' with botRequests := s'.botRequests + 1 }
        else if rt = "tenant" then { s' with tenantRequests := s'.tenantRequests + 1 }
        else s'
  let s2 := { s1 with floorRequests := addReq s1.floorRequests floorNumber }
  let s3 :=
    if requesterType = some "bot" then
      { s2 with pendingBotRequests :=
          s2.pendingBotRequests ++ [⟨floorNumber, occupantId, destination⟩] }
    else if requesterType = some "tenant" then
      { s2 with pendingTenantRequests :=
          s2.pendingTenantRequests ++ [⟨floorNumber, occupantId, destination⟩] }
    else s2
  let s4 :=
    if ¬ s3.inMotion ∧ (s3.targetFloor = none ∨ s3.targetFloor = some s3.currentFloor) then
      updateTargetFloor s3
    else s3
  (s4, true)

/-- `requestFloor(floorNumber, requesterType, occupantId, destination)`.
`gen` is the oracle for the `Date.now()`-derived identifier used when
`occupantId` is null; `rnd` feeds `addOccupant`'s default destination.
Out-of-range floors throw (`Except.error`), leaving the state unchanged. -/
def requestFloor (cfg : Config) (s : EState) (floorNumber : Int)
    (requesterType : Option String) (occupantId : Option String)
    (destination : Option Int) (gen : String) (rnd : Int) :
    Except String (EState × Bool) :=
  if floorNumber < 1 ∨ floorNumber > cfg.floors then
    .error "Invalid floor number"
  else
    -- capacity check / immediate boarding / waiting-tenant tracking
    if requesterType.isSome ∧ s.currentFloor = floorNumber ∧
        s.doorState = .OPEN ∧ ¬ isOccupantInElevator s occupantId then
      if s.occupants.length ≥ cfg.maxOccupants then
        .ok (s, false)
      else
        let s1 := addOccupant s (occupantId.getD gen)
          (requesterType.getD "") destination rnd
        .ok (requestFloorRest s1 floorNumber requesterType occupantId destination gen)
    else if requesterType = some "tenant" ∧ floorNumber ≠ s.currentFloor then
      let tenantId := occupantId.getD gen
      let s1 :=
        if s.waitingTenants.any (fun t => t.id == tenantId) then s
        else { s with waitingTenants :=
                s.waitingTenants ++ [⟨tenantId, floorNumber, destination⟩] }
      .ok (requestFloorRest s1 floorNumber requesterType occupantId destination gen)
    else
      .ok (requestFloorRest s floorNumber requesterType occupantId destination gen)

/-- Body of the door-opening completion timer inside `openDoor()` (door reaches
OPEN, the current floor is deleted from `floorRequests`, stale requests are
cleaned; the door-close timer it arms is the `doorTimer` event). -/
def doorOpenedBody (s : EState) : EState :=
  let s1 := { s with doorState := DoorSt.OPEN }
  let s2 := { s1 with floorRequests := delReq s1.floorRequests s1.currentFloor }
  cleanupStaleRequests s2

/-- Body of the door-closing completion timer inside `closeDoor()`. -/
def doorClosedBody (s : EState) : EState :=
  let s1 := { s with doorState := DoorSt.CLOSED }
  if s1.targetFloor ≠ none ∧ s1.targetFloor ≠ some s1.currentFloor ∧ ¬ s1.inMotion then
    startMovement s1
  else s1

/-- Body of the arrival timer inside `startMovement()` (occupant exit and the
follow-up dispatch run as the later `exitTick` / `dispatchTick` events). -/
def arriveBody (s : EState) : EState :=
  match s.targetFloor with
  | none => s  -- no travel timer is ever armed without a target
  | some t =>
    let s1 := { s with currentFloor := t, inMotion := false }
    let s2 := openDoor s1
    { s2 with floorRequests := delReq s2.floorRequests s2.currentFloor }

/-- Body of the delayed occupant-exit timer armed on arrival: each occupant
whose destination is the floor the car stands at is removed (the source
captures the exiting list at arrival; the car does not move in between). -/
def exitTickBody (s : EState) : EState :=
  (s.occupants.filter (fun o => o.destination = s.currentFloor)).foldl
    (fun st o => removeOccupant st o.id) s

/-- One timed or external event of the car.  Oracle arguments stand for
wall-clock-derived values (`Date.now()` ids, `Math.random()` destinations). -/
inductive Ev
  | req (floorNumber : Int) (requesterType occupantId : Option String)
        (destination : Option Int) (gen : String) (rnd : Int)
  | addOcc (oid ty : String) (destination : Option Int) (rnd : Int)
  | removeOcc (oid : String)
  | setDest (oid : String) (d : Int)
  | doorOpened
  | doorClosed
  | doorTimer
  | delayedStart
  | arrive
  | exitTick
  | dispatchTick
  | emergency (b : Bool)
  | obstruct (b : Bool)
  deriving DecidableEq, Repr

/-- The step function: each event runs the synchronous body of the matching
source callback, guarded by the condition under which that timer can actually
be pending ('no-op' otherwise). -/
def step (cfg : Config) (s : EState) : Ev → EState
  | .req fn rt oid dest gen rnd =>
      match requestFloor cfg s fn rt oid dest gen rnd with
      | .ok (s', _) => s'
      | .error _ => s
  | .addOcc oid ty dest rnd => addOccupant s oid ty dest rnd
  | .removeOcc oid => removeOccupant s oid
  | .setDest oid d => setOccupantDestination s oid d
  | .doorOpened => if s.doorState = .OPENING then doorOpenedBody s else s
  | .doorClosed => if s.doorState = .CLOSING then doorClosedBody s else s
  | .doorTimer =>
      if s.doorState = .OPEN ∧ ¬ s.doorObstruction then closeDoor s else s
  | .delayedStart => if s.targetFloor ≠ none then startMovement s else s
  | .arrive => if s.inMotion then arriveBody s else s
  | .exitTick => exitTickBody s
  | .dispatchTick => updateTargetFloor s
  | .emergency b => setEmergencyState s b
  | .obstruct b => setDoorObstruction s b

/-- Replay of an event list from a state. -/
def run (cfg : Config) (s : EState) (evs : List Ev) : EState :=
  evs.foldl (step cfg) s

/-- States reachable from the freshly constructed car. -/
def Reachable (cfg : Config) (s : EState) : Prop :=
  ∃ evs : List Ev, run cfg initState evs = s

/-- Events that board occupants only through `requestFloor`'s guarded path
(every event except a direct `addOccupant` call). -/
def Ev.guarded : Ev → Bool
  | .addOcc _ _ _ _ => false
  | _ => true

/-- Reachability when boarding goes only through `requestFloor`. -/
def GuardedReachable (cfg : Config) (s : EState) : Prop :=
  ∃ evs : List Ev, evs.all Ev.guarded ∧ run cfg initState evs = s

end VE

namespace P5

/-!
Embedding of the alternate `VirtualElevator.js` variant (the one carrying the
`prioritizationMode` dispatch branch).  Its state has no occupant tracking and
its pending queues store floors only.
-/

/-- Constructor configuration of the variant. -/
structure Config where
  floors : Int
  prioritizationMode : String
  deriving DecidableEq, Repr

/-- Elevator state of the variant. -/
structure EState where
  currentFloor : Int
  targetFloor : Option Int
  doorState : VE.DoorSt
  direction : VE.Dir
  inMotion : Bool
  emergencyState : Bool
  doorObstruction : Bool
  floorRequests : List Int
  pendingBotRequests : List Int
  pendingTenantRequests : List Int
  totalRequests : Nat
  botRequests : Nat
  tenantRequests : Nat
  deriving DecidableEq, Repr

/-- Initial state of the variant's constructor. -/
def initState : EState where
  currentFloor := 1
  targetFloor := none
  doorState := .CLOSED
  direction := .STATIONARY
  inMotion := false
  emergencyState := false
  doorObstruction := false
  floorRequests := []
  pendingBotRequests := []
  pendingTenantRequests := []
  totalRequests := 0
  botRequests := 0
  tenantRequests := 0

/-- Variant `openDoor()`: early return when OPEN or OPENING. -/
def openDoor (s : EState) : EState :=
  if s.doorState = .OPEN ∨ s.doorState = .OPENING then s
  else { s with doorState := .OPENING }

/-- Variant `closeDoor()`: early return when CLOSED, CLOSING or obstructed. -/
def closeDoor (s : EState) : EState :=
  if s.doorState = .CLOSED ∨ s.doorState = .CLOSING ∨ s.doorObstruction then s
  else { s with doorState := .CLOSING }

/-- Variant `moveToTargetFloor()`: sets the direction and `inMotion` together
and arms the travel timer (the `arrive` event). -/
def moveToTargetFloor (s : EState) : EState :=
  match s.targetFloor with
  | none => s
  | some t =>
    if s.inMotion then s
    else if s.currentFloor = t then
      if s.doorState = .CLOSED then openDoor s else s
    else
      let dir : VE.Dir := if t > s.currentFloor then .UP else .DOWN
      { s with direction := dir, inMotion := true }

/-- The direction-biased closest-floor loop of the variant's standard
algorithm (starts from `closestFloor = null`, `minDistance = Infinity`; a tie
is broken towards the current direction). -/
def closestDir (cur : Int) (dir : VE.Dir) : List Int → Option (Int × Int) → Option (Int × Int)
  | [], acc => acc
  | f :: rest, acc =>
      let d := |f - cur|
      let upd : Bool :=
        match acc with
        | none => true
        | some (_, m) =>
            d < m ∨ (d = m ∧ ((dir = .UP ∧ f > cur) ∨ (dir = .DOWN ∧ f < cur)))
      closestDir cur dir rest (if upd then some (f, d) else acc)

/-- Variant `updateTargetFloor()`: motion guard, emptiness guard, the
prioritization-mode switch, then the standard algorithm. -/
def updateTargetFloor (cfg : Config) (s : EState) : EState :=
  if s.inMotion then s
  else if s.floorRequests = [] then { s with targetFloor := none }
  else if cfg.prioritizationMode = "bot-priority" ∧ s.pendingBotRequests ≠ [] then
    moveToTargetFloor { s with targetFloor := s.pendingBotRequests.head? }
  else if cfg.prioritizationMode = "tenant-priority" ∧ s.pendingTenantRequests ≠ [] then
    moveToTargetFloor { s with targetFloor := s.pendingTenantRequests.head? }
  else
    match s.direction with
    | .STATIONARY =>
        match s.floorRequests with
        | [] => s  -- unreachable: guarded by the emptiness check above
        | r0 :: _ =>
          let p := VE.closestLoop s.currentFloor s.floorRequests (r0, |r0 - s.currentFloor|)
          moveToTargetFloor { s with targetFloor := some p.1 }
    | _ =>
        let acc := closestDir s.currentFloor s.direction s.floorRequests none
        moveToTargetFloor { s with targetFloor := acc.map Prod.fst }

/-- Variant `requestFloor(floorNumber, requesterType)`: statistics, request-set
insertion, an immediate `updateTargetFloor`, and only then the pending-queue
push (the dispatch decision runs before the new pending entry exists). -/
def requestFloor (cfg : Config) (s : EState) (floorNumber : Int)
    (requesterType : Option String) : Except String (EState × Bool) :=
  if floorNumber < 1 ∨ floorNumber > cfg.floors then
    .error "Invalid floor number"
  else
    let s1 :=
      match requesterType with
      | none => s
      | some rt =>
          let s' := { s with totalRequests := s.totalRequests + 1 }
          if rt = "bot" then { s' with botRequests := s'.botRequests + 1 }
          else if rt = "tenant" then { s' with tenantRequests := s'.tenantRequests + 1 }
          else s'
    let s2 := { s1 with floorRequests := VE.addReq s1.floorRequests floorNumber }
    let s3 := updateTargetFloor cfg s2
    let s4 :=
      if requesterType = some "bot" then
        { s3 with pendingBotRequests := s3.pendingBotRequests ++ [floorNumber] }
      else if requesterType = some "tenant" then
        { s3 with pendingTenantRequests := s3.pendingTenantRequests ++ [floorNumber] }
      else s3
    .ok (s4, true)

/-- Variant `setEmergencyState(emergency)`. -/
def setEmergencyState (s : EState) (emergency : Bool) : EState :=
  let s' := { s with emergencyState := emergency }
  if emergency then
    { s' with inMotion := false, direction := .STATIONARY }
  else s'

/-- Variant `setDoorObstruction(obstructed)`. -/
def setDoorObstruction (s : EState) (obstructed : Bool) : EState :=
  let s' := { s with doorObstruction := obstructed }
  if obstructed ∧ s'.doorState = .CLOSING then openDoor s' else s'

/-- Body of the variant's arrival timer: position update, direction reset,
pending-queue pruning, door opening; the delayed re-dispatch is the
`dispatchTick` event. -/
def arriveBody (s : EState) : EState :=
  match s.targetFloor with
  | none => s
  | some t =>
    let s1 := { s with
      currentFloor := t
      inMotion := false
      direction := .STATIONARY
      pendingBotRequests := s.pendingBotRequests.filter (fun f => f ≠ t)
      pendingTenantRequests := s.pendingTenantRequests.filter (fun f => f ≠ t) }
    openDoor s1

/-- Events of the variant. -/
inductive Ev
  | req (floorNumber : Int) (requesterType : Option String)
  | openDoorCall
  | closeDoorCall
  | doorOpened
  | doorClosed
  | arrive
  | dispatchTick
  | emergency (b : Bool)
  | obstruct (b : Bool)
  deriving DecidableEq, Repr

/-- Step function of the variant. -/
def step (cfg : Config) (s : EState) : Ev → EState
  | .req fn rt =>
      match requestFloor cfg s fn rt with
      | .ok (s', _) => s'
      | .error _ => s
  | .openDoorCall => openDoor s
  | .closeDoorCall => closeDoor s
  | .doorOpened => if s.doorState = .OPENING then { s with doorState := .OPEN } else s
  | .doorClosed => if s.doorState = .CLOSING then { s with doorState := .CLOSED } else s
  | .arrive => if s.inMotion then arriveBody s else s
  | .dispatchTick => updateTargetFloor cfg s
  | .emergency b => setEmergencyState s b
  | .obstruct b => setDoorObstruction s b

/-- Replay of an event list. -/
def run (cfg : Config) (s : EState) (evs : List Ev) : EState :=
  evs.foldl (step cfg) s

/-- States of the variant reachable from its constructor state. -/
def Reachable (cfg : Config) (s : EState) : Prop :=
  ∃ evs : List Ev, run cfg initState evs = s

/-- The idle/no-direction invariant of the variant: a car that is not in
motion has no established direction. -/
def NoDirIdle (s : EState) : Prop :=
  s.inMotion = false → s.direction = .STATIONARY

end P5

namespace VR

/-!
Embedding of `VirtualRobot.js` (the battery life-cycle part used by the
claims; the elevator-side effects of `requestElevator` happen on the elevator
object and are out of the robot's own state).
-/

/-- Robot status values. -/
inductive RStatus
  | IDLE
  | WAITING_FOR_ELEVATOR
  | ENTERING_ELEVATOR
  | IN_ELEVATOR
  | EXITING_ELEVATOR
  | MOVING_TO_DESTINATION
  | CLEANING
  | CHARGING
  | RETURNING_TO_CHARGER
  deriving DecidableEq, Repr

/-- Robot configuration (`floors` is read off the connected elevator's
configuration in the source). -/
structure RConfig where
  batteryCapacity : ℚ
  batteryConsumptionRate : ℚ
  chargingRate : ℚ
  chargingFloor : Int
  floors : Int
  deriving DecidableEq, Repr

/-- Robot state (fields the battery life-cycle reads or writes;
`visitedFloors` is lazily created in the source, hence optional). -/
structure RState where
  currentFloor : Int
  targetFloor : Option Int
  status : RStatus
  batteryLevel : ℚ
  batteryPercentage : Int
  lastBatteryUpdateTime : ℚ
  visitedFloors : Option (List Int)
  deriving DecidableEq, Repr

/-- JS `Math.round` (round half towards positive infinity). -/
def jsRound (q : ℚ) : Int := ⌊q + 1/2⌋

/-- `requestElevator(targetFloor)` (robot-side effects only; the
`requestFloor` call lands on the elevator object). -/
def requestElevator (r : RState) (target : Int) : RState :=
  { r with status := .WAITING_FOR_ELEVATOR, targetFloor := some target }

/-- `startCharging()` parameterized by the battery-update entry used for its
immediate nested call (the periodic charging checks are separate timer
events). -/
def startChargingWith (upd : ℚ → RState → RState) (now : ℚ) (r : RState) : RState :=
  upd now { r with status := .CHARGING }

/-- `returnToChargingStation()` parameterized the same way (the parameter is
threaded to `startCharging`'s nested battery update). -/
def returnToChargingStationWith (cfg : RConfig) (upd : ℚ → RState → RState)
    (now : ℚ) (r : RState) : RState :=
  let r1 := { r with status := .RETURNING_TO_CHARGER, targetFloor := some cfg.chargingFloor }
  if r1.currentFloor = cfg.chargingFloor then startChargingWith upd now r1
  else requestElevator r1 cfg.chargingFloor

/-- `moveToNextFloor()` parameterized the same way. -/
def moveToNextFloorWith (cfg : RConfig) (upd : ℚ → RState → RState)
    (now : ℚ) (r : RState) : RState :=
  match r.visitedFloors with
  | none => r  -- unreachable: only called with the visited set created
  | some vs =>
    let uncleanedFloors := ((List.range cfg.floors.toNat).map (fun i => (i : Int) + 1)).filter
      (fun f => f ∉ vs)
    match uncleanedFloors with
    | [] => returnToChargingStationWith cfg upd now r
    | n0 :: _ =>
      let p := VE.closestLoop r.currentFloor uncleanedFloors (n0, |n0 - r.currentFloor|)
      let r1 := { r with status := .WAITING_FOR_ELEVATOR, targetFloor := some p.1 }
      requestElevator r1 p.1

/-- `updateBatteryLevel()`.  `now` is the oracle for `Date.now()`; `fuel`
bounds the nested self-invocation through `returnToChargingStation` /
`startCharging` (statically at most two levels deep for in-range states; the
fuel-0 cutoff returns the state unchanged and is unreachable from the entry
depths used in the theorems below, whose paths never recurse). -/
def updateBatteryLevel (cfg : RConfig) : Nat → ℚ → RState → RState
  | 0, _, r => r
  | fuel + 1, now, r =>
    let elapsedMinutes := (now - r.lastBatteryUpdateTime) / 60000
    if elapsedMinutes > 0 then
      if r.status ≠ .IDLE ∧ r.status ≠ .CHARGING then
        let batteryConsumed := elapsedMinutes * cfg.batteryConsumptionRate
        let level1 := r.batteryLevel - batteryConsumed
        let level2 := if level1 < 0 then 0 else level1
        let pct := jsRound (level2 / cfg.batteryCapacity * 100)
        let r1 := { r with batteryLevel := level2, batteryPercentage := pct }
        let r2 :=
          if pct < 10 ∧ r1.status ≠ .RETURNING_TO_CHARGER then
            returnToChargingStationWith cfg (updateBatteryLevel cfg fuel) now r1
          else r1
        { r2 with lastBatteryUpdateTime := now }
      else if r.status = .CHARGING then
        let chargeAmount := elapsedMinutes * cfg.chargingRate
        let level := min cfg.batteryCapacity (r.batteryLevel + chargeAmount)
        let pct := jsRound (level / cfg.batteryCapacity * 100)
        let r1 := { r with batteryLevel := level, batteryPercentage := pct }
        let r2 :=
          match r1.visitedFloors with
          | some vs =>
              if pct ≥ 95 ∧ (vs.length : Int) < cfg.floors then
                moveToNextFloorWith cfg (updateBatteryLevel cfg fuel) now { r1 with status := .IDLE }
              else r1
          | none => r1
        { r2 with lastBatteryUpdateTime := now }
      else
        { r with lastBatteryUpdateTime := now }
    else r

/-- `returnToChargingStation()` with its nested battery update at the given
fuel. -/
def returnToChargingStation (cfg : RConfig) (fuel : Nat) : ℚ → RState → RState :=
  returnToChargingStationWith cfg (updateBatteryLevel cfg fuel)

/-- `startCharging()` with its nested battery update at the given fuel. -/
def startCharging (cfg : RConfig) (fuel : Nat) : ℚ → RState → RState :=
  startChargingWith (updateBatteryLevel cfg fuel)

/-- `moveToNextFloor()` with its nested battery update at the given fuel. -/
def moveToNextFloor (cfg : RConfig) (fuel : Nat) : ℚ → RState → RState :=
  moveToNextFloorWith cfg (updateBatteryLevel cfg fuel)

end VR

namespace VT

/-!
Embedding of `VirtualTenant.js`.  The `connected` flag models the pair
(`elevatorConnection` non-null, door-state listener registered): the two are
set together by `connectToElevator` and cleared together by `disconnect`.
-/

/-- Tenant status values. -/
inductive TStatus
  | WAITING
  | IN_ELEVATOR
  | EXITED
  deriving DecidableEq, Repr

/-- Tenant configuration. -/
structure TConfig where
  id : String
  startFloor : Int
  destinationFloor : Option Int
  deriving DecidableEq, Repr

/-- Tenant state (`currentFloor` is optional because `exitElevator` copies the
possibly-null configured destination into it). -/
structure TState where
  currentFloor : Option Int
  status : TStatus
  connected : Bool
  deriving DecidableEq, Repr

/-- Tenant state right after `connectToElevator` issued its request and armed
the patience timer. -/
def initState (cfg : TConfig) : TState where
  currentFloor := some cfg.startFloor
  status := .WAITING
  connected := true

/-- Tenant-visible events: a `doorStateChanged` notification from the car
(carrying the car's floor and whether it is at capacity, the two cross-object
reads the listener makes) and the patience-timer expiry. -/
inductive TEv
  | door (doorState : VE.DoorSt) (elevatorFloor : Int) (elevatorFull : Bool)
  | patience
  deriving DecidableEq, Repr

/-- `disconnect()`. -/
def disconnect (t : TState) : TState :=
  if t.connected then { t with connected := false } else t

/-- `enterElevator(elevator)` (boarding also calls the car's `addOccupant` and
`requestFloor`; those effects live on the car object). -/
def enterElevator (t : TState) (elevatorFull : Bool) : TState :=
  if t.status ≠ .WAITING then t
  else if elevatorFull then t
  else { t with status := .IN_ELEVATOR }

/-- `exitElevator(elevator)`. -/
def exitElevator (cfg : TConfig) (t : TState) : TState :=
  if t.status ≠ .IN_ELEVATOR then t
  else disconnect { t with status := .EXITED, currentFloor := cfg.destinationFloor }

/-- Tenant step function: the door listener runs only while registered; the
patience timer disconnects a still-waiting tenant. -/
def step (cfg : TConfig) (t : TState) : TEv → TState
  | .door ds fl full =>
      if t.connected then
        if ds = .OPEN ∧ fl = cfg.startFloor ∧ t.status = .WAITING then
          enterElevator t full
        else if ds = .OPEN ∧ some fl = cfg.destinationFloor ∧ t.status = .IN_ELEVATOR then
          exitElevator cfg t
        else t
      else t
  | .patience => if t.status = .WAITING then disconnect t else t

/-- Replay of tenant events. -/
def run (cfg : TConfig) (t : TState) (evs : List TEv) : TState :=
  evs.foldl (step cfg) t

end VT

/-! ## Concrete instances used by witnesses and counterexamples -/

/-- Dispatch decision point matching the spec example: car at floor 4 moving
UP with pending requests 6 and 1. -/
def c1s : VE.EState :=
  { VE.initState with currentFloor := 4, direction := .UP, floorRequests := [6, 1] }

/-- Cold-start decision point: stationary car at floor 5 with requests
3, 7, 2 (in insertion order). -/
def c2s : VE.EState :=
  { VE.initState with currentFloor := 5, floorRequests := [3, 7, 2] }

/-- Variant-car configuration in robot-priority mode. -/
def c3cfg : P5.Config := ⟨10, "bot-priority"⟩

/-- Variant car idle at floor 5 with a robot-origin pending request for
floor 8 queued before a tenant-origin request for floor 3. -/
def c3s : P5.EState :=
  { P5.initState with
    currentFloor := 5
    floorRequests := [8, 3]
    pendingBotRequests := [8]
    pendingTenantRequests := [3] }

/-- A one-seat car. -/
def c4cfg : VE.Config := ⟨10, 1⟩

/-- Two direct `addOccupant` calls with distinct ids on a one-seat car. -/
def c4trace : List VE.Ev :=
  [.addOcc "a" "bot" (some 2) 0, .addOcc "b" "bot" (some 3) 0]

/-- The state those two calls produce. -/
def c4state : VE.EState := VE.run c4cfg VE.initState c4trace

/-- A guarded trace (no direct `addOccupant`): one robot call for floor 3. -/
def c4wtrace : List VE.Ev := [.req 3 (some "bot") none none "g" 0]

/-- Default-capacity car configuration. -/
def c5cfg : VE.Config := ⟨10, 8⟩

/-- Timer-consistent trace: a robot call opens the door at floor 1; a tenant
boards there with destination 1; the door times out and closes; a second
robot call reopens the door, whose completion deletes floor 1 from
`floorRequests` while the tenant is still aboard. -/
def c5trace : List VE.Ev :=
  [.req 1 (some "bot") none none "g1" 0,
   .doorOpened,
   .req 1 (some "tenant") (some "A") (some 1) "g2" 0,
   .doorTimer,
   .doorClosed,
   .req 1 (some "bot") none none "g3" 0,
   .doorOpened]

/-- The state that trace produces. -/
def c5state : VE.EState := VE.run c5cfg VE.initState c5trace

/-- A car holding one occupant bound for floor 3 whose request is tracked. -/
def c5ws : VE.EState :=
  { VE.initState with
    occupants := [⟨"A", "tenant", 1, 3⟩]
    floorRequests := [3] }

/-- A full one-seat car standing at floor 1 with the door open. -/
def c6s : VE.EState :=
  { VE.initState with doorState := .OPEN, occupants := [⟨"A", "tenant", 1, 3⟩] }

/-- One-seat configuration for the capacity-rejection scenario. -/
def c6cfg : VE.Config := ⟨10, 1⟩

/-- Default-capacity configuration for the emergency scenario. -/
def c7cfg : VE.Config := ⟨10, 8⟩

/-- A car put in motion (direction UP) by a robot call for floor 3. -/
def c7state : VE.EState :=
  VE.run c7cfg VE.initState [.req 3 (some "bot") none none "g" 0]

/-- A tenant bound from floor 1 to floor 9. -/
def c8cfg : VT.TConfig := ⟨"T", 1, some 9⟩

/-- A car holding occupant "A". -/
def c10s : VE.EState :=
  { VE.initState with
    occupants := [⟨"A", "tenant", 1, 3⟩]
    floorRequests := [3] }

/-! ## Generic replay lemmas -/

/-- An invariant preserved by every step is preserved by any replay. -/
theorem foldl_inv {σ ε : Type} (f : σ → ε → σ) (P : σ → Prop)
    (h : ∀ s e, P s → P (f s e)) :
    ∀ (l : List ε) (s : σ), P s → P (l.foldl f s) := by
  intro l
  induction l with
  | nil => intro s hs; exact hs
  | cons e l ih => intro s hs; exact ih (f s e) (h s e hs)

/-- An invariant preserved by every step satisfying a guard is preserved by
any replay of guarded events. -/
theorem foldl_inv_guarded {σ ε : Type} (f : σ → ε → σ) (P : σ → Prop) (Q : ε → Bool)
    (h : ∀ s e, Q e = true → P s → P (f s e)) :
    ∀ (l : List ε) (s : σ), l.all Q = true → P s → P (l.foldl f s) := by
  intro l
  induction l with
  | nil => intro s _ hs; exact hs
  | cons e l ih =>
      intro s hq hs
      rw [List.all_cons, Bool.and_eq_true] at hq
      exact ih (f s e) hq.2 (h s e hq.1 hs)

namespace VE

/-! ## Frame lemmas for the primary elevator model -/

@[simp] theorem openDoor_currentFloor (s : EState) :
    (openDoor s).currentFloor = s.currentFloor := by
  unfold openDoor; split <;> rfl

@[simp] theorem openDoor_targetFloor (s : EState) :
    (openDoor s).targetFloor = s.targetFloor := by
  unfold openDoor; split <;> rfl

@[simp] theorem openDoor_direction (s : EState) :
    (openDoor s).direction = s.direction := by
  unfold openDoor; split <;> rfl

@[simp] theorem openDoor_floorRequests (s : EState) :
    (openDoor s).floorRequests = s.floorRequests := by
  unfold openDoor; split <;> rfl

@[simp] theorem openDoor_occupants (s : EState) :
    (openDoor s).occupants = s.occupants := by
  unfold openDoor; split <;> rfl

@[simp] theorem openDoor_emergencyState (s : EState) :
    (openDoor s).emergencyState = s.emergencyState := by
  unfold openDoor; split <;> rfl

@[simp] theorem closeDoor_currentFloor (s : EState) :
    (closeDoor s).currentFloor = s.currentFloor := by
  unfold closeDoor; split <;> rfl

@[simp] theorem closeDoor_targetFloor (s : EState) :
    (closeDoor s).targetFloor = s.targetFloor := by
  unfold closeDoor; split <;> rfl

@[simp] theorem closeDoor_direction (s : EState) :
    (closeDoor s).direction = s.direction := by
  unfold closeDoor; split <;> rfl

@[simp] theorem closeDoor_floorRequests (s : EState) :
    (closeDoor s).floorRequests = s.floorRequests := by
  unfold closeDoor; split <;> rfl

@[simp] theorem closeDoor_occupants (s : EState) :
    (closeDoor s).occupants = s.occupants := by
  unfold closeDoor; split <;> rfl

@[simp] theorem closeDoor_emergencyState (s : EState) :
    (closeDoor s).emergencyState = s.emergencyState := by
  unfold closeDoor; split <;> rfl

@[simp] theorem startMovement_currentFloor (s : EState) :
    (startMovement s).currentFloor = s.currentFloor := rfl

@[simp] theorem startMovement_targetFloor (s : EState) :
    (startMovement s).targetFloor = s.targetFloor := rfl

@[simp] theorem startMovement_direction (s : EState) :
    (startMovement s).direction = s.direction := rfl

@[simp] theorem startMovement_floorRequests (s : EState) :
    (startMovement s).floorRequests = s.floorRequests := rfl

@[simp] theorem startMovement_occupants (s : EState) :
    (startMovement s).occupants = s.occupants := rfl

@[simp] theorem startMovement_emergencyState (s : EState) :
    (startMovement s).emergencyState = s.emergencyState := rfl

@[simp] theorem moveToTargetFloor_currentFloor (s : EState) :
    (moveToTargetFloor s).currentFloor = s.currentFloor := by
  unfold moveToTargetFloor
  rcases h : s.targetFloor with _ | t
  · simp [h]
  · dsimp only
    split
    · split <;> simp [h]
    · split <;> simp [h]

@[simp] theorem moveToTargetFloor_targetFloor (s : EState) :
    (moveToTargetFloor s).targetFloor = s.targetFloor := by
  unfold moveToTargetFloor
  rcases h : s.targetFloor with _ | t
  · simp [h]
  · dsimp only
    split
    · split <;> simp [h]
    · split <;> simp [h]

@[simp] theorem moveToTargetFloor_floorRequests (s : EState) :
    (moveToTargetFloor s).floorRequests = s.floorRequests := by
  unfold moveToTargetFloor
  rcases h : s.targetFloor with _ | t
  · simp [h]
  · dsimp only
    split
    · split <;> simp [h]
    · split <;> simp [h]

@[simp] theorem moveToTargetFloor_occupants (s : EState) :
    (moveToTargetFloor s).occupants = s.occupants := by
  unfold moveToTargetFloor
  rcases h : s.targetFloor with _ | t
  · simp [h]
  · dsimp only
    split
    · split <;> simp [h]
    · split <;> simp [h]

@[simp] theorem moveToTargetFloor_emergencyState (s : EState) :
    (moveToTargetFloor s).emergencyState = s.emergencyState := by
  unfold moveToTargetFloor
  rcases h : s.targetFloor with _ | t
  · simp [h]
  · dsimp only
    split
    · split <;> simp [h]
    · split <;> simp [h]

theorem updFallback_frame (s : EState) :
    (updFallback s).currentFloor = s.currentFloor ∧
    (updFallback s).floorRequests = s.floorRequests ∧
    (updFallback s).occupants = s.occupants ∧
    (updFallback s).emergencyState = s.emergencyState := by
  unfold updFallback
  rcases s.floorRequests with _ | ⟨f, rest⟩ <;> simp

theorem updateTargetFloor_frame (s : EState) :
    (updateTargetFloor s).currentFloor = s.currentFloor ∧
    (updateTargetFloor s).floorRequests = s.floorRequests ∧
    (updateTargetFloor s).occupants = s.occupants ∧
    (updateTargetFloor s).emergencyState = s.emergencyState := by
  unfold updateTargetFloor
  split
  · simp
  · split
    · simp
    · split
      · simp
      · rcases s.direction <;> dsimp only
        · split <;> [simp; skip]
          split <;> [simp; exact updFallback_frame s]
        · split <;> [simp; skip]
          split <;> [simp; exact updFallback_frame s]
        · split <;> simp

@[simp] theorem updateTargetFloor_currentFloor (s : EState) :
    (updateTargetFloor s).currentFloor = s.currentFloor := (updateTargetFloor_frame s).1

@[simp] theorem updateTargetFloor_floorRequests (s : EState) :
    (updateTargetFloor s).floorRequests = s.floorRequests := (updateTargetFloor_frame s).2.1

@[simp] theorem updateTargetFloor_occupants (s : EState) :
    (updateTargetFloor s).occupants = s.occupants := (updateTargetFloor_frame s).2.2.1

@[simp] theorem updateTargetFloor_emergencyState (s : EState) :
    (updateTargetFloor s).emergencyState = s.emergencyState := (updateTargetFloor_frame s).2.2.2

end VE

namespace VE

/-! ## Frame lemmas: occupant bookkeeping and request intake -/

theorem mem_addReq_of_mem {l : List Int} {f : Int} (g : Int) (h : f ∈ l) :
    f ∈ addReq l g := by
  unfold addReq; split
  · exact h
  · exact List.mem_append_left _ h

theorem mem_addReq_self (l : List Int) (g : Int) : g ∈ addReq l g := by
  unfold addReq; split
  · assumption
  · exact List.mem_append_right _ (List.mem_singleton.2 rfl)

/-- `addOccupant` either finds the occupant already aboard and does nothing, or
appends one occupancy record and registers its destination. -/
theorem addOccupant_cases (s : EState) (oid ty : String) (dest : Option Int) (rnd : Int) :
    (isOccupantInElevator s (some oid) = true ∧ addOccupant s oid ty dest rnd = s) ∨
    (isOccupantInElevator s (some oid) = false ∧
      ∃ d, addOccupant s oid ty dest rnd =
        { s with
          occupants := s.occupants ++ [⟨oid, ty, s.currentFloor, d⟩]
          floorRequests := addReq s.floorRequests d }) := by
  unfold addOccupant
  split
  · exact Or.inl ⟨by assumption, rfl⟩
  · refine Or.inr ⟨by simp_all, ?_⟩
    cases dest with
    | some d => exact ⟨d, rfl⟩
    | none => exact ⟨if s.currentFloor = 1 then rnd else 1, rfl⟩

@[simp] theorem cleanupStaleRequests_currentFloor (s : EState) :
    (cleanupStaleRequests s).currentFloor = s.currentFloor := rfl

@[simp] theorem cleanupStaleRequests_occupants (s : EState) :
    (cleanupStaleRequests s).occupants = s.occupants := rfl

@[simp] theorem cleanupStaleRequests_emergencyState (s : EState) :
    (cleanupStaleRequests s).emergencyState = s.emergencyState := rfl

/-- The stale-request cleanup never drops the destination of an occupant who is
still aboard, except when that destination is the floor the car stands at. -/
theorem cleanupStaleRequests_keep (s : EState) (o : Occupant)
    (ho : o ∈ s.occupants) (hd : o.destination ∈ s.floorRequests) :
    o.destination ∈ (cleanupStaleRequests s).floorRequests ∨
      o.destination = s.currentFloor := by
  by_cases hc : o.destination = s.currentFloor
  · exact Or.inr hc
  · left
    have hdests : o.destination ∈ s.occupants.map (fun o => o.destination) :=
      List.mem_map.2 ⟨o, ho, rfl⟩
    simp only [cleanupStaleRequests]
    refine List.mem_filter.2 ⟨?_, ?_⟩
    · split
      · exact List.mem_filter.2 ⟨hd, by simp [hc]⟩
      · exact hd
    · simp only [decide_eq_true_eq]
      rintro ⟨hstale, -⟩
      have h2 := (List.mem_filter.1 hstale).2
      simp only [decide_eq_true_eq] at h2
      exact h2.2 hdests

@[simp] theorem removeOccupant_currentFloor (s : EState) (oid : String) :
    (removeOccupant s oid).currentFloor = s.currentFloor := by
  unfold removeOccupant; split <;> rfl

@[simp] theorem removeOccupant_emergencyState (s : EState) (oid : String) :
    (removeOccupant s oid).emergencyState = s.emergencyState := by
  unfold removeOccupant; split <;> rfl

theorem removeOccupant_occupants_sub (s : EState) (oid : String) (o : Occupant)
    (h : o ∈ (removeOccupant s oid).occupants) : o ∈ s.occupants := by
  unfold removeOccupant at h
  split at h
  · exact (List.eraseP_sublist s.occupants).subset (by simpa using h)
  · exact h

theorem removeOccupant_length_le (s : EState) (oid : String) :
    (removeOccupant s oid).occupants.length ≤ s.occupants.length := by
  unfold removeOccupant
  split
  · simpa using (List.eraseP_sublist s.occupants).length_le
  · exact le_rfl

/-- `removeOccupant` keeps a surviving occupant's destination requested unless
that destination is the current floor. -/
theorem removeOccupant_keep (s : EState) (oid : String) (o : Occupant)
    (ho : o ∈ (removeOccupant s oid).occupants)
    (hd : o.destination ∈ s.floorRequests) :
    o.destination ∈ (removeOccupant s oid).floorRequests ∨
      o.destination = s.currentFloor := by
  unfold removeOccupant
  unfold removeOccupant at ho
  split <;> split at ho
  · exact cleanupStaleRequests_keep _ o (by simpa using ho) hd
  · simp_all
  · simp_all
  · exact Or.inl hd

@[simp] theorem setOccupantDestination_currentFloor (s : EState) (oid : String) (d : Int) :
    (setOccupantDestination s oid d).currentFloor = s.currentFloor := by
  unfold setOccupantDestination; split <;> rfl

@[simp] theorem setOccupantDestination_emergencyState (s : EState) (oid : String) (d : Int) :
    (setOccupantDestination s oid d).emergencyState = s.emergencyState := by
  unfold setOccupantDestination; split <;> rfl

theorem setOccupantDestination_length (s : EState) (oid : String) (d : Int) :
    (setOccupantDestination s oid d).occupants.length = s.occupants.length := by
  unfold setOccupantDestination; split <;> simp

@[simp] theorem requestFloorRest_occupants (s : EState) (fn : Int)
    (rt oid : Option String) (dest : Option Int) (g : String) :
    ((requestFloorRest s fn rt oid dest g).1).occupants = s.occupants := by
  unfold requestFloorRest
  dsimp only
  (repeat' split) <;> simp

@[simp] theorem requestFloorRest_currentFloor (s : EState) (fn : Int)
    (rt oid : Option String) (dest : Option Int) (g : String) :
    ((requestFloorRest s fn rt oid dest g).1).currentFloor = s.currentFloor := by
  unfold requestFloorRest
  dsimp only
  (repeat' split) <;> simp

@[simp] theorem requestFloorRest_emergencyState (s : EState) (fn : Int)
    (rt oid : Option String) (dest : Option Int) (g : String) :
    ((requestFloorRest s fn rt oid dest g).1).emergencyState = s.emergencyState := by
  unfold requestFloorRest
  dsimp only
  (repeat' split) <;> simp

@[simp] theorem requestFloorRest_floorRequests (s : EState) (fn : Int)
    (rt oid : Option String) (dest : Option Int) (g : String) :
    ((requestFloorRest s fn rt oid dest g).1).floorRequests = addReq s.floorRequests fn := by
  unfold requestFloorRest
  dsimp only
  (repeat' split) <;> simp [addReq]

end VE

namespace VE

@[simp] theorem addOccupant_currentFloor (s : EState) (oid ty : String)
    (dest : Option Int) (rnd : Int) :
    (addOccupant s oid ty dest rnd).currentFloor = s.currentFloor := by
  unfold addOccupant; split <;> rfl

@[simp] theorem addOccupant_emergencyState (s : EState) (oid ty : String)
    (dest : Option Int) (rnd : Int) :
    (addOccupant s oid ty dest rnd).emergencyState = s.emergencyState := by
  unfold addOccupant; split <;> rfl

theorem addOccupant_length_le (s : EState) (oid ty : String)
    (dest : Option Int) (rnd : Int) :
    (addOccupant s oid ty dest rnd).occupants.length ≤ s.occupants.length + 1 := by
  unfold addOccupant; split
  · exact Nat.le_succ _
  · simp

/-- Inversion of `requestFloor`: the call throws on an out-of-range floor,
rejects at capacity with no state change, or runs the shared tail on the state
left by the boarding / waiting-tenant bookkeeping. -/
theorem requestFloor_shape (cfg : Config) (s : EState) (fn : Int)
    (rt oid : Option String) (dest : Option Int) (gen : String) (rnd : Int) :
    requestFloor cfg s fn rt oid dest gen rnd = .error "Invalid floor number" ∨
    (requestFloor cfg s fn rt oid dest gen rnd = .ok (s, false) ∧
      s.occupants.length ≥ cfg.maxOccupants) ∨
    (∃ s1 : EState,
      requestFloor cfg s fn rt oid dest gen rnd = .ok (requestFloorRest s1 fn rt oid dest gen) ∧
      ((s1 = addOccupant s (oid.getD gen) (rt.getD "") dest rnd ∧
          s.occupants.length < cfg.maxOccupants) ∨
        s1 = s ∨
        s1 = { s with waitingTenants := s.waitingTenants ++ [⟨oid.getD gen, fn, dest⟩] })) := by
  unfold requestFloor
  split
  · exact Or.inl rfl
  · split
    · split
      · exact Or.inr (Or.inl ⟨rfl, by assumption⟩)
      · exact Or.inr (Or.inr ⟨_, rfl, Or.inl ⟨rfl, by omega⟩⟩)
    · split
      · dsimp only
        split
        · exact Or.inr (Or.inr ⟨_, rfl, Or.inr (Or.inl rfl)⟩)
        · exact Or.inr (Or.inr ⟨_, rfl, Or.inr (Or.inr rfl)⟩)
      · exact Or.inr (Or.inr ⟨_, rfl, Or.inr (Or.inl rfl)⟩)

@[simp] theorem setEmergencyState_currentFloor (s : EState) (b : Bool) :
    (setEmergencyState s b).currentFloor = s.currentFloor := by
  unfold setEmergencyState; split <;> rfl

@[simp] theorem setEmergencyState_floorRequests (s : EState) (b : Bool) :
    (setEmergencyState s b).floorRequests = s.floorRequests := by
  unfold setEmergencyState; split <;> rfl

@[simp] theorem setEmergencyState_occupants (s : EState) (b : Bool) :
    (setEmergencyState s b).occupants = s.occupants := by
  unfold setEmergencyState; split <;> rfl

@[simp] theorem setEmergencyState_emergencyState (s : EState) (b : Bool) :
    (setEmergencyState s b).emergencyState = b := by
  unfold setEmergencyState; split <;> rfl

@[simp] theorem setDoorObstruction_currentFloor (s : EState) (b : Bool) :
    (setDoorObstruction s b).currentFloor = s.currentFloor := by
  unfold setDoorObstruction; dsimp only; split <;> simp

@[simp] theorem setDoorObstruction_floorRequests (s : EState) (b : Bool) :
    (setDoorObstruction s b).floorRequests = s.floorRequests := by
  unfold setDoorObstruction; dsimp only; split <;> simp

@[simp] theorem setDoorObstruction_occupants (s : EState) (b : Bool) :
    (setDoorObstruction s b).occupants = s.occupants := by
  unfold setDoorObstruction; dsimp only; split <;> simp

@[simp] theorem setDoorObstruction_emergencyState (s : EState) (b : Bool) :
    (setDoorObstruction s b).emergencyState = s.emergencyState := by
  unfold setDoorObstruction; dsimp only; split <;> simp

@[simp] theorem doorOpenedBody_currentFloor (s : EState) :
    (doorOpenedBody s).currentFloor = s.currentFloor := rfl

@[simp] theorem doorOpenedBody_occupants (s : EState) :
    (doorOpenedBody s).occupants = s.occupants := rfl

@[simp] theorem doorOpenedBody_emergencyState (s : EState) :
    (doorOpenedBody s).emergencyState = s.emergencyState := rfl

@[simp] theorem doorClosedBody_currentFloor (s : EState) :
    (doorClosedBody s).currentFloor = s.currentFloor := by
  unfold doorClosedBody; dsimp only; split <;> rfl

@[simp] theorem doorClosedBody_floorRequests (s : EState) :
    (doorClosedBody s).floorRequests = s.floorRequests := by
  unfold doorClosedBody; dsimp only; split <;> rfl

@[simp] theorem doorClosedBody_occupants (s : EState) :
    (doorClosedBody s).occupants = s.occupants := by
  unfold doorClosedBody; dsimp only; split <;> rfl

@[simp] theorem doorClosedBody_emergencyState (s : EState) :
    (doorClosedBody s).emergencyState = s.emergencyState := by
  unfold doorClosedBody; dsimp only; split <;> rfl

@[simp] theorem arriveBody_occupants (s : EState) :
    (arriveBody s).occupants = s.occupants := by
  unfold arriveBody
  rcases s.targetFloor with _ | t <;> simp

@[simp] theorem arriveBody_emergencyState (s : EState) :
    (arriveBody s).emergencyState = s.emergencyState := by
  unfold arriveBody
  rcases s.targetFloor with _ | t <;> simp

theorem removeFold_occupants_sub (l : List Occupant) :
    ∀ (s : EState) (o : Occupant),
      o ∈ (l.foldl (fun st o => removeOccupant st o.id) s).occupants → o ∈ s.occupants := by
  induction l with
  | nil => intro s o h; exact h
  | cons x l ih =>
      intro s o h
      exact removeOccupant_occupants_sub _ _ _ (ih _ _ h)

theorem removeFold_currentFloor (l : List Occupant) :
    ∀ s : EState, (l.foldl (fun st o => removeOccupant st o.id) s).currentFloor = s.currentFloor := by
  induction l with
  | nil => intro s; rfl
  | cons x l ih => intro s; rw [List.foldl_cons, ih, removeOccupant_currentFloor]

theorem removeFold_emergencyState (l : List Occupant) :
    ∀ s : EState, (l.foldl (fun st o => removeOccupant st o.id) s).emergencyState = s.emergencyState := by
  induction l with
  | nil => intro s; rfl
  | cons x l ih => intro s; rw [List.foldl_cons, ih, removeOccupant_emergencyState]

theorem removeFold_length_le (l : List Occupant) :
    ∀ s : EState, (l.foldl (fun st o => removeOccupant st o.id) s).occupants.length ≤ s.occupants.length := by
  induction l with
  | nil => intro s; exact le_rfl
  | cons x l ih =>
      intro s
      exact le_trans (ih _) (removeOccupant_length_le _ _)

@[simp] theorem exitTickBody_emergencyState (s : EState) :
    (exitTickBody s).emergencyState = s.emergencyState := by
  unfold exitTickBody; exact removeFold_emergencyState _ s

theorem step_req_of_ok (cfg : Config) (s : EState) (fn : Int)
    (rt oid : Option String) (dest : Option Int) (gen : String) (rnd : Int)
    (s' : EState) (b : Bool)
    (h : requestFloor cfg s fn rt oid dest gen rnd = .ok (s', b)) :
    step cfg s (.req fn rt oid dest gen rnd) = s' := by
  simp only [step, h]

theorem step_req_of_error (cfg : Config) (s : EState) (fn : Int)
    (rt oid : Option String) (dest : Option Int) (gen : String) (rnd : Int)
    (msg : String)
    (h : requestFloor cfg s fn rt oid dest gen rnd = .error msg) :
    step cfg s (.req fn rt oid dest gen rnd) = s := by
  simp only [step, h]

/-- No event other than an external `setEmergencyState` call changes the
emergency flag. -/
theorem step_emergencyState (cfg : Config) (s : EState) (e : Ev)
    (he : ∀ b, e ≠ Ev.emergency b) :
    (step cfg s e).emergencyState = s.emergencyState := by
  cases e with
  | emergency b => exact absurd rfl (he b)
  | req fn rt oid dest gen rnd =>
      rcases requestFloor_shape cfg s fn rt oid dest gen rnd with h | ⟨h, -⟩ | ⟨s1, h, hs1⟩
      · rw [step_req_of_error cfg s fn rt oid dest gen rnd _ h]
      · rw [step_req_of_ok cfg s fn rt oid dest gen rnd _ _ h]
      · rcases hp : requestFloorRest s1 fn rt oid dest gen with ⟨s2, b2⟩
        rw [hp] at h
        rw [step_req_of_ok cfg s fn rt oid dest gen rnd _ _ h]
        have h2 := requestFloorRest_emergencyState s1 fn rt oid dest gen
        rw [hp] at h2
        rw [h2]
        rcases hs1 with ⟨h1, -⟩ | h1 | h1 <;> subst h1 <;> simp
  | addOcc oid ty dest rnd => simp [step]
  | removeOcc oid => simp [step]
  | setDest oid d => simp [step]
  | doorOpened => simp only [step]; split <;> simp
  | doorClosed => simp only [step]; split <;> simp
  | doorTimer => simp only [step]; split <;> simp
  | delayedStart => simp only [step]; split <;> simp
  | arrive => simp only [step]; split <;> simp
  | exitTick => simp [step]
  | dispatchTick => simp [step]
  | obstruct b => simp [step]

end VE

namespace VR

/-- With no elapsed virtual time since the last update, `updateBatteryLevel`
returns its state unchanged. -/
theorem updateBatteryLevel_fixed (cfg : RConfig) (fuel : Nat) (r : RState) :
    updateBatteryLevel cfg fuel r.lastBatteryUpdateTime r = r := by
  cases fuel with
  | zero => rw [updateBatteryLevel]
  | succ n => rw [updateBatteryLevel]; simp

end VR

namespace VE

/-- Adding an occupant already aboard leaves the car unchanged. -/
theorem addOccupant_of_mem (s : EState) (oid ty : String) (dest : Option Int)
    (rnd : Int) (h : isOccupantInElevator s (some oid) = true) :
    addOccupant s oid ty dest rnd = s := by
  unfold addOccupant; rw [if_pos h]

/-- After `addOccupant s oid …`, occupant `oid` is aboard. -/
theorem isOccupantInElevator_addOccupant (s : EState) (oid ty : String)
    (dest : Option Int) (rnd : Int) :
    isOccupantInElevator (addOccupant s oid ty dest rnd) (some oid) = true := by
  rcases addOccupant_cases s oid ty dest rnd with ⟨h, he⟩ | ⟨h, d, he⟩
  · rw [he]; exact h
  · rw [he]; unfold isOccupantInElevator; simp

end VE

/-! ## Claim theorems -/

/-- C9: for every robot in any status, calling the battery-update function any
number of times with zero elapsed virtual time since the last update leaves
`batteryLevel` unchanged (the update is idempotent at a fixed time point). -/
theorem battery_update_idempotent (cfg : VR.RConfig) (fuel n : Nat) (r : VR.RState) :
    ((fun st => VR.updateBatteryLevel cfg fuel st.lastBatteryUpdateTime st)^[n] r).batteryLevel
      = r.batteryLevel := by
  have h : (fun st : VR.RState => VR.updateBatteryLevel cfg fuel st.lastBatteryUpdateTime st) r
      = r :=
    VR.updateBatteryLevel_fixed cfg fuel r
  have key :=
    @Function.iterate_fixed _ (fun st : VR.RState =>
      VR.updateBatteryLevel cfg fuel st.lastBatteryUpdateTime st) r h n
  rw [key]

/-- C10: calling `addOccupant` with an occupant id already aboard leaves the
car's state completely unchanged — no duplicate occupancy record, no
`floorRequests` change — so adding the same occupant twice (with any type or
destination) equals adding it once. -/
theorem addOccupant_idempotent (s : VE.EState) (oid ty : String)
    (dest : Option Int) (rnd : Int) :
    (VE.isOccupantInElevator s (some oid) = true →
      VE.addOccupant s oid ty dest rnd = s) ∧
    (∀ (ty' : String) (dest' : Option Int) (rnd' : Int),
      VE.addOccupant (VE.addOccupant s oid ty dest rnd) oid ty' dest' rnd' =
        VE.addOccupant s oid ty dest rnd) := by
  refine ⟨VE.addOccupant_of_mem s oid ty dest rnd, fun ty' dest' rnd' => ?_⟩
  exact VE.addOccupant_of_mem _ oid ty' dest' rnd'
    (VE.isOccupantInElevator_addOccupant s oid ty dest rnd)

/-- Witness for C10 at a concrete car already holding occupant "A". -/
theorem addOccupant_idempotent_witness :
    VE.addOccupant c10s "A" "tenant" (some 3) 0 = c10s :=
  (addOccupant_idempotent c10s "A" "tenant" (some 3) 0).1 (by decide)

/-- C6: a car at the requested floor with door OPEN and the named occupant not
aboard rejects the request when at capacity: `requestFloor` returns `false`
and the entire state (occupants, `floorRequests`, statistics counters) is
unchanged. -/
theorem requestFloor_capacity_reject (cfg : VE.Config) (s : VE.EState)
    (fn : Int) (rt oid : Option String) (dest : Option Int) (gen : String) (rnd : Int)
    (hrange : ¬(fn < 1 ∨ fn > cfg.floors))
    (hrt : rt.isSome = true) (hcur : s.currentFloor = fn)
    (hdoor : s.doorState = .OPEN)
    (hocc : VE.isOccupantInElevator s oid = false)
    (hcap : s.occupants.length ≥ cfg.maxOccupants) :
    VE.requestFloor cfg s fn rt oid dest gen rnd = .ok (s, false) := by
  unfold VE.requestFloor
  rw [if_neg hrange, if_pos ⟨hrt, hcur, hdoor, by simp [hocc]⟩, if_pos hcap]

/-- Witness for C6: a one-seat car at floor 1, door open, holding "A",
rejects tenant "B" with no state change. -/
theorem requestFloor_capacity_reject_witness :
    VE.requestFloor c6cfg c6s 1 (some "tenant") (some "B") (some 5) "g" 0 =
      .ok (c6s, false) :=
  requestFloor_capacity_reject c6cfg c6s 1 (some "tenant") (some "B") (some 5) "g" 0
    (by decide) rfl rfl rfl (by decide) (by decide)

/-- C8: a tenant whose patience timer fires while still WAITING disconnects
from the car (is removed from active tracking) and thereafter never
transitions to IN_ELEVATOR, whatever door events — including the car opening
at its start floor — follow. -/
theorem tenant_patience_no_boarding (cfg : VT.TConfig) (t : VT.TState)
    (h : t.status = .WAITING) :
    (VT.step cfg t .patience).connected = false ∧
    ∀ evs : List VT.TEv,
      (VT.run cfg (VT.step cfg t .patience) evs).status ≠ .IN_ELEVATOR := by
  have hstep : (VT.step cfg t .patience).connected = false ∧
      (VT.step cfg t .patience).status = .WAITING := by
    simp only [VT.step, h, if_pos]
    unfold VT.disconnect
    split <;> simp_all
  refine ⟨hstep.1, fun evs => ?_⟩
  have hinv := foldl_inv (VT.step cfg)
    (fun x => x.connected = false ∧ x.status = .WAITING) ?_ evs _ hstep
  · unfold VT.run
    rw [hinv.2]
    simp
  · intro x e hx
    cases e with
    | door ds fl full =>
        simpa [VT.step, hx.1] using hx
    | patience =>
        simp only [VT.step, hx.2, if_pos]
        unfold VT.disconnect
        rw [if_neg (by simp [hx.1])]
        exact hx

/-- Witness for C8: the concrete tenant bound from floor 1 to floor 9, after
its patience fires, stays out of the car even when a door opens at floor 1. -/
theorem tenant_patience_no_boarding_witness :
    (VT.run c8cfg (VT.step c8cfg (VT.initState c8cfg) .patience)
      [VT.TEv.door .OPEN 1 false]).status ≠ .IN_ELEVATOR :=
  (tenant_patience_no_boarding c8cfg (VT.initState c8cfg) rfl).2
    [VT.TEv.door .OPEN 1 false]

/-- C7 counterexample: raising the emergency on a car that is moving UP does
not leave the `direction` field unchanged — `setEmergencyState(true)` resets
it to STATIONARY. -/
theorem emergency_direction_cex :
    c7state.direction = .UP ∧ c7state.inMotion = true ∧
    (VE.setEmergencyState c7state true).direction = .STATIONARY ∧
    (VE.setEmergencyState c7state true).direction ≠ c7state.direction :=
  ⟨by decide, by decide, by decide, by decide⟩

/-- C7 amended: raising the emergency halts in-progress motion (`inMotion`
becomes `false`; the pending travel event is gated on `inMotion` and can no
longer fire) and resets the direction to STATIONARY (rather than leaving it
unchanged); the emergency flag is cleared by no engine event other than an
external `setEmergencyState(false)` call. -/
theorem emergency_halts_and_latches (cfg : VE.Config) :
    (∀ s : VE.EState,
      (VE.setEmergencyState s true).inMotion = false ∧
      (VE.setEmergencyState s true).direction = .STATIONARY ∧
      (VE.setEmergencyState s true).emergencyState = true) ∧
    (∀ (s : VE.EState) (e : VE.Ev), s.emergencyState = true →
      (∀ b, e ≠ VE.Ev.emergency b) → (VE.step cfg s e).emergencyState = true) := by
  constructor
  · intro s
    refine ⟨?_, ?_, ?_⟩ <;> simp [VE.setEmergencyState]
  · intro s e hs he
    rw [VE.step_emergencyState cfg s e he, hs]

/-- Witness for C7 amended: the flag stays raised across a door-timer event. -/
theorem emergency_halts_and_latches_witness :
    (VE.step c7cfg (VE.setEmergencyState VE.initState true) VE.Ev.doorTimer).emergencyState
      = true :=
  (emergency_halts_and_latches c7cfg).2 (VE.setEmergencyState VE.initState true)
    VE.Ev.doorTimer (by decide) (by decide)

/-- C4 counterexample: with `addOccupant` itself among the public operations,
two direct calls on a one-seat car reach a state with two occupants. -/
theorem capacity_invariant_cex :
    VE.Reachable c4cfg c4state ∧ ¬(c4state.occupants.length ≤ c4cfg.maxOccupants) :=
  ⟨⟨c4trace, rfl⟩, by decide⟩

namespace VE

/-- Every guarded event (boarding only through `requestFloor`) preserves the
capacity bound. -/
theorem step_occupants_length (cfg : Config) (s : EState) (e : Ev)
    (hg : Ev.guarded e = true)
    (h : s.occupants.length ≤ cfg.maxOccupants) :
    (step cfg s e).occupants.length ≤ cfg.maxOccupants := by
  cases e with
  | req fn rt oid dest gen rnd =>
      rcases requestFloor_shape cfg s fn rt oid dest gen rnd with hq | ⟨hq, -⟩ | ⟨s1, hq, hs1⟩
      · rw [step_req_of_error cfg s fn rt oid dest gen rnd _ hq]; exact h
      · rw [step_req_of_ok cfg s fn rt oid dest gen rnd _ _ hq]; exact h
      · rcases hp : requestFloorRest s1 fn rt oid dest gen with ⟨s2, b2⟩
        rw [hp] at hq
        rw [step_req_of_ok cfg s fn rt oid dest gen rnd _ _ hq]
        have h2 := requestFloorRest_occupants s1 fn rt oid dest gen
        rw [hp] at h2
        rw [show s2.occupants = (s2, b2).1.occupants from rfl, h2]
        rcases hs1 with ⟨h1, hlt⟩ | h1 | h1 <;> subst h1
        · calc (addOccupant s (oid.getD gen) (rt.getD "") dest rnd).occupants.length
              ≤ s.occupants.length + 1 := addOccupant_length_le _ _ _ _ _
            _ ≤ cfg.maxOccupants := hlt
        · exact h
        · exact h
  | addOcc oid ty dest rnd => exact absurd hg (by simp [Ev.guarded])
  | removeOcc oid =>
      simp only [step]
      exact le_trans (removeOccupant_length_le s oid) h
  | setDest oid d =>
      simp only [step]
      rw [setOccupantDestination_length]; exact h
  | doorOpened => simp only [step]; split <;> simpa
  | doorClosed => simp only [step]; split <;> simpa
  | doorTimer => simp only [step]; split <;> simpa
  | delayedStart => simp only [step]; split <;> simpa
  | arrive => simp only [step]; split <;> simpa
  | exitTick =>
      simp only [step]
      exact le_trans (removeFold_length_le _ s) h
  | dispatchTick => simp only [step]; simpa
  | emergency b => simp only [step]; simpa
  | obstruct b => simp only [step]; simpa

end VE

/-- C4 amended: as long as boarding happens only through `requestFloor`'s
guarded path (no direct unguarded `addOccupant` call), every reachable state
satisfies `occupants.length ≤ maxOccupants`.  (The direct `addOccupant`
operation performs no capacity check, so the bound fails when it is included
among the public operations — see the counterexample.) -/
theorem capacity_invariant_guarded (cfg : VE.Config) (s : VE.EState)
    (h : VE.GuardedReachable cfg s) :
    s.occupants.length ≤ cfg.maxOccupants := by
  obtain ⟨evs, hall, hrun⟩ := h
  subst hrun
  exact foldl_inv_guarded (VE.step cfg) (fun x => x.occupants.length ≤ cfg.maxOccupants)
    VE.Ev.guarded (fun x e hq hx => VE.step_occupants_length cfg x e hq hx)
    evs VE.initState hall (by simp [VE.initState])

/-- Witness for C4 amended: a guarded trace on the one-seat car stays within
capacity. -/
theorem capacity_invariant_guarded_witness :
    (VE.run c4cfg VE.initState c4wtrace).occupants.length ≤ c4cfg.maxOccupants :=
  capacity_invariant_guarded c4cfg _ ⟨c4wtrace, by decide, rfl⟩

namespace VE

/-- Specification of the closest-floor loop: starting from an accumulator
whose distance entry is consistent, the loop returns a consistent pair whose
distance is minimal over the traversed list; either the accumulator survives
untouched, or the result is an element of the list strictly better than the
accumulator and than every element before it. -/
theorem closestLoop_spec (cur : Int) :
    ∀ (l : List Int) (c m : Int), m = |c - cur| →
      (closestLoop cur l (c, m)).2 = |(closestLoop cur l (c, m)).1 - cur| ∧
      (closestLoop cur l (c, m)).2 ≤ m ∧
      (∀ f ∈ l, (closestLoop cur l (c, m)).2 ≤ |f - cur|) ∧
      (((closestLoop cur l (c, m)).1 = c ∧ (closestLoop cur l (c, m)).2 = m) ∨
        (∃ l₁ l₂, l = l₁ ++ (closestLoop cur l (c, m)).1 :: l₂ ∧
          (∀ f ∈ l₁, (closestLoop cur l (c, m)).2 < |f - cur|) ∧
          (closestLoop cur l (c, m)).2 < m)) := by
  intro l
  induction l with
  | nil =>
      intro c m hm
      exact ⟨hm, le_rfl, fun f hf => absurd hf (List.not_mem_nil f), Or.inl ⟨rfl, rfl⟩⟩
  | cons f rest ih =>
      intro c m hm
      by_cases hlt : |f - cur| < m
      · have hstep : closestLoop cur (f :: rest) (c, m) = closestLoop cur rest (f, |f - cur|) := by
          rw [closestLoop, if_pos hlt]
        obtain ⟨h1, h2, h3, h4⟩ := ih f |f - cur| rfl
        rw [hstep]
        refine ⟨h1, le_trans h2 (le_of_lt hlt), ?_, ?_⟩
        · intro g hg
          rcases List.mem_cons.1 hg with hg | hg
          · subst hg; exact h2
          · exact h3 g hg
        · rcases h4 with ⟨he, hm2⟩ | ⟨l₁, l₂, hdec, hl₁, hm2⟩
          · refine Or.inr ⟨[], rest, by rw [he]; rfl, ?_, by rw [hm2]; exact hlt⟩
            intro g hg
            exact absurd hg (List.not_mem_nil g)
          · refine Or.inr ⟨f :: l₁, l₂,
              by rw [List.cons_append]; exact congrArg (List.cons f) hdec, ?_, lt_trans hm2 hlt⟩
            intro g hg
            rcases List.mem_cons.1 hg with hg | hg
            · subst hg; exact hm2
            · exact hl₁ g hg
      · have hstep : closestLoop cur (f :: rest) (c, m) = closestLoop cur rest (c, m) := by
          rw [closestLoop, if_neg hlt]
        obtain ⟨h1, h2, h3, h4⟩ := ih c m hm
        rw [hstep]
        refine ⟨h1, h2, ?_, ?_⟩
        · intro g hg
          rcases List.mem_cons.1 hg with hg | hg
          · subst hg; exact le_trans h2 (not_lt.1 hlt)
          · exact h3 g hg
        · rcases h4 with hleft | ⟨l₁, l₂, hdec, hl₁, hm2⟩
          · exact Or.inl hleft
          · refine Or.inr ⟨f :: l₁, l₂,
              by rw [List.cons_append]; exact congrArg (List.cons f) hdec, ?_, hm2⟩
            intro g hg
            rcases List.mem_cons.1 hg with hg | hg
            · subst hg; exact lt_of_lt_of_le hm2 (not_lt.1 hlt)
            · exact hl₁ g hg

/-- The closest-floor loop run the way the STATIONARY branch runs it (seeded
with the head of the request list) returns the first floor of the list
attaining the minimum distance. -/
theorem closestLoop_first_min (cur r0 : Int) (rest : List Int) :
    (closestLoop cur (r0 :: rest) (r0, |r0 - cur|)).2 =
      |(closestLoop cur (r0 :: rest) (r0, |r0 - cur|)).1 - cur| ∧
    (∀ f ∈ r0 :: rest,
      (closestLoop cur (r0 :: rest) (r0, |r0 - cur|)).2 ≤ |f - cur|) ∧
    ∃ l₁ l₂, r0 :: rest = l₁ ++ (closestLoop cur (r0 :: rest) (r0, |r0 - cur|)).1 :: l₂ ∧
      ∀ f ∈ l₁, (closestLoop cur (r0 :: rest) (r0, |r0 - cur|)).2 < |f - cur| := by
  obtain ⟨h1, _, h3, h4⟩ := closestLoop_spec cur (r0 :: rest) r0 |r0 - cur| rfl
  refine ⟨h1, h3, ?_⟩
  rcases h4 with ⟨he, -⟩ | ⟨l₁, l₂, hdec, hl₁, -⟩
  · exact ⟨[], rest, by rw [he]; rfl, fun g hg => absurd hg (List.not_mem_nil g)⟩
  · exact ⟨l₁, l₂, hdec, hl₁⟩

/-- `moveToTargetFloor` never changes the target, and sets the direction from
the target's position relative to the current floor (keeping the old
direction when the car is already at the target). -/
theorem moveToTargetFloor_direction (s : EState) (t : Int) (h : s.targetFloor = some t) :
    (moveToTargetFloor s).direction =
      if s.currentFloor = t then s.direction
      else if t > s.currentFloor then .UP else .DOWN := by
  unfold moveToTargetFloor
  rw [h]
  dsimp only
  by_cases hc : s.currentFloor = t
  · rw [if_pos hc, if_pos hc]
    split <;> simp
  · rw [if_neg hc, if_neg hc]
    split <;> simp

/-- Head of the ascending insertion sort: a member below all elements. -/
theorem sortedAsc_head (l : List Int) (a : Int) (rest : List Int)
    (h : l.insertionSort (· ≤ ·) = a :: rest) :
    a ∈ l ∧ ∀ f ∈ l, a ≤ f := by
  have hperm := List.perm_insertionSort (fun x1 x2 : Int => x1 ≤ x2) l
  have hsorted := List.sorted_insertionSort (fun x1 x2 : Int => x1 ≤ x2) l
  rw [h] at hperm hsorted
  refine ⟨hperm.mem_iff.1 (List.mem_cons_self a rest), ?_⟩
  intro f hf
  rcases List.mem_cons.1 (hperm.mem_iff.2 hf) with rfl | hf'
  · exact le_rfl
  · exact (List.sorted_cons.1 hsorted).1 f hf'

/-- Head of the descending insertion sort: a member above all elements. -/
theorem sortedDesc_head (l : List Int) (b : Int) (rest : List Int)
    (h : l.insertionSort (· ≥ ·) = b :: rest) :
    b ∈ l ∧ ∀ f ∈ l, f ≤ b := by
  have hperm := List.perm_insertionSort (fun x1 x2 : Int => x1 ≥ x2) l
  have hsorted := List.sorted_insertionSort (fun x1 x2 : Int => x1 ≥ x2) l
  rw [h] at hperm hsorted
  refine ⟨hperm.mem_iff.1 (List.mem_cons_self b rest), ?_⟩
  intro f hf
  rcases List.mem_cons.1 (hperm.mem_iff.2 hf) with rfl | hf'
  · exact le_rfl
  · exact (List.sorted_cons.1 hsorted).1 f hf'

/-- A nonempty list has a nonempty insertion sort. -/
theorem insertionSort_ne_nil (r : Int → Int → Prop) [DecidableRel r]
    (l : List Int) (h : l ≠ []) : l.insertionSort r ≠ [] := by
  intro hs
  exact h (List.length_eq_zero.1 (by rw [← List.length_insertionSort r l, hs]; rfl))

end VE

/-- C2: on a dispatch decision for a STATIONARY car with pending requests,
`updateTargetFloor` targets a floor of `floorRequests` at minimum absolute
distance from the current floor — ties going to the first such floor in
iteration order — and sets the direction UP/DOWN according to the target's
position, STATIONARY only when the target is the current floor. -/
theorem updateTargetFloor_cold_start (s : VE.EState)
    (hd : s.direction = .STATIONARY) (hm : s.inMotion = false)
    (ht : s.targetFloor = none ∨ s.targetFloor = some s.currentFloor)
    (hne : s.floorRequests ≠ []) :
    ∃ c l₁ l₂,
      (VE.updateTargetFloor s).targetFloor = some c ∧
      s.floorRequests = l₁ ++ c :: l₂ ∧
      (∀ f ∈ s.floorRequests, |c - s.currentFloor| ≤ |f - s.currentFloor|) ∧
      (∀ f ∈ l₁, |c - s.currentFloor| < |f - s.currentFloor|) ∧
      (VE.updateTargetFloor s).direction =
        (if c > s.currentFloor then VE.Dir.UP
         else if c = s.currentFloor then VE.Dir.STATIONARY
         else VE.Dir.DOWN) := by
  rcases hfr : s.floorRequests with _ | ⟨r0, rest⟩
  · exact absurd hfr hne
  have hguard3 : ¬(s.targetFloor ≠ none ∧ s.targetFloor ≠ some s.currentFloor) := by
    rcases ht with h | h <;> simp [h]
  have hupd : VE.updateTargetFloor s =
      VE.moveToTargetFloor { s with
        direction :=
          if (VE.closestLoop s.currentFloor (r0 :: rest) (r0, |r0 - s.currentFloor|)).1
              > s.currentFloor then .UP
          else if (VE.closestLoop s.currentFloor (r0 :: rest)
              (r0, |r0 - s.currentFloor|)).1 = s.currentFloor then .STATIONARY
          else .DOWN
        targetFloor :=
          some (VE.closestLoop s.currentFloor (r0 :: rest) (r0, |r0 - s.currentFloor|)).1 } := by
    unfold VE.updateTargetFloor
    rw [if_neg (by rw [hfr]; simp), if_neg (by simp [hm]), if_neg hguard3]
    simp only [hd, hfr]
  obtain ⟨hp2, hmin, l₁, l₂, hdec, hfirst⟩ :=
    VE.closestLoop_first_min s.currentFloor r0 rest
  refine ⟨(VE.closestLoop s.currentFloor (r0 :: rest) (r0, |r0 - s.currentFloor|)).1,
    l₁, l₂, ?_, ?_, ?_, ?_, ?_⟩
  · rw [hupd, VE.moveToTargetFloor_targetFloor]
  · exact hdec
  · intro f hf
    rw [← hp2]
    exact hmin f hf
  · intro f hf
    rw [← hp2]
    exact hfirst f hf
  · rw [hupd]
    rw [VE.moveToTargetFloor_direction _
      (VE.closestLoop s.currentFloor (r0 :: rest) (r0, |r0 - s.currentFloor|)).1 rfl]
    by_cases hc : s.currentFloor =
        (VE.closestLoop s.currentFloor (r0 :: rest) (r0, |r0 - s.currentFloor|)).1
    · rw [if_pos hc]
    · rw [if_neg hc]
      by_cases hgt : (VE.closestLoop s.currentFloor (r0 :: rest)
          (r0, |r0 - s.currentFloor|)).1 > s.currentFloor
      · simp [hgt]
      · have hc' : ¬((VE.closestLoop s.currentFloor (r0 :: rest)
            (r0, |r0 - s.currentFloor|)).1 = s.currentFloor) := fun h => hc h.symm
        simp [hgt, hc']

/-- Witness for C2 at the stationary car on floor 5 with requests 3, 7, 2:
the theorem instantiates to a concrete dispatch decision. -/
theorem updateTargetFloor_cold_start_witness :
    ∃ c l₁ l₂,
      (VE.updateTargetFloor c2s).targetFloor = some c ∧
      c2s.floorRequests = l₁ ++ c :: l₂ ∧
      (∀ f ∈ c2s.floorRequests, |c - c2s.currentFloor| ≤ |f - c2s.currentFloor|) ∧
      (∀ f ∈ l₁, |c - c2s.currentFloor| < |f - c2s.currentFloor|) ∧
      (VE.updateTargetFloor c2s).direction =
        (if c > c2s.currentFloor then VE.Dir.UP
         else if c = c2s.currentFloor then VE.Dir.STATIONARY
         else VE.Dir.DOWN) :=
  updateTargetFloor_cold_start c2s rfl rfl (Or.inl rfl) (by decide)

/-- C1: at a dispatch decision point (car not in motion, no committed target),
a car with direction UP targets the smallest requested floor strictly above
the current floor when one exists and keeps going UP; with none above but some
below it flips to DOWN and targets the largest requested floor below;
symmetrically for direction DOWN. -/
theorem updateTargetFloor_directional_continuation (s : VE.EState)
    (hm : s.inMotion = false)
    (ht : s.targetFloor = none ∨ s.targetFloor = some s.currentFloor) :
    (s.direction = .UP →
      ((∃ f ∈ s.floorRequests, s.currentFloor < f) →
        ∃ a, (VE.updateTargetFloor s).targetFloor = some a ∧
          (VE.updateTargetFloor s).direction = .UP ∧
          a ∈ s.floorRequests ∧ s.currentFloor < a ∧
          ∀ f ∈ s.floorRequests, s.currentFloor < f → a ≤ f) ∧
      (((∀ f ∈ s.floorRequests, ¬ s.currentFloor < f) ∧
          (∃ f ∈ s.floorRequests, f < s.currentFloor)) →
        ∃ b, (VE.updateTargetFloor s).targetFloor = some b ∧
          (VE.updateTargetFloor s).direction = .DOWN ∧
          b ∈ s.floorRequests ∧ b < s.currentFloor ∧
          ∀ f ∈ s.floorRequests, f < s.currentFloor → f ≤ b)) ∧
    (s.direction = .DOWN →
      ((∃ f ∈ s.floorRequests, f < s.currentFloor) →
        ∃ b, (VE.updateTargetFloor s).targetFloor = some b ∧
          (VE.updateTargetFloor s).direction = .DOWN ∧
          b ∈ s.floorRequests ∧ b < s.currentFloor ∧
          ∀ f ∈ s.floorRequests, f < s.currentFloor → f ≤ b) ∧
      (((∀ f ∈ s.floorRequests, ¬ f < s.currentFloor) ∧
          (∃ f ∈ s.floorRequests, s.currentFloor < f)) →
        ∃ a, (VE.updateTargetFloor s).targetFloor = some a ∧
          (VE.updateTargetFloor s).direction = .UP ∧
          a ∈ s.floorRequests ∧ s.currentFloor < a ∧
          ∀ f ∈ s.floorRequests, s.currentFloor < f → a ≤ f)) := by
  have hguard3 : ¬(s.targetFloor ≠ none ∧ s.targetFloor ≠ some s.currentFloor) := by
    rcases ht with h | h <;> simp [h]
  constructor
  · intro hdir
    constructor
    · rintro ⟨f0, hf0, hlt0⟩
      have hne : s.floorRequests ≠ [] := List.ne_nil_of_mem hf0
      have hfa : f0 ∈ s.floorRequests.filter (fun f => s.currentFloor < f) :=
        List.mem_filter.2 ⟨hf0, by simpa using hlt0⟩
      rcases hsort : (s.floorRequests.filter
          (fun f => s.currentFloor < f)).insertionSort (· ≤ ·) with _ | ⟨a, arest⟩
      · exact absurd hsort
          (VE.insertionSort_ne_nil _ _ (List.ne_nil_of_mem hfa))
      obtain ⟨hamem, hale⟩ := VE.sortedAsc_head _ a arest hsort
      have hamem' := List.mem_filter.1 hamem
      have hacur : s.currentFloor < a := by simpa using hamem'.2
      have hupd : VE.updateTargetFloor s =
          VE.moveToTargetFloor { s with targetFloor := some a } := by
        unfold VE.updateTargetFloor
        rw [if_neg (by simp [hne]), if_neg (by simp [hm]), if_neg hguard3]
        simp only [hdir]
        rw [hsort]
      refine ⟨a, ?_, ?_, hamem'.1, hacur, ?_⟩
      · rw [hupd, VE.moveToTargetFloor_targetFloor]
      · rw [hupd, VE.moveToTargetFloor_direction _ a rfl]
        rw [if_neg (fun h => (ne_of_lt hacur) h), if_pos hacur]
      · intro f hf hcf
        exact hale f (List.mem_filter.2 ⟨hf, by simpa using hcf⟩)
    · rintro ⟨hnone, f0, hf0, hlt0⟩
      have hne : s.floorRequests ≠ [] := List.ne_nil_of_mem hf0
      have hfilnil : s.floorRequests.filter (fun f => s.currentFloor < f) = [] := by
        rw [List.filter_eq_nil_iff]
        intro f hf
        simpa using hnone f hf
      have hfb : f0 ∈ s.floorRequests.filter (fun f => f < s.currentFloor) :=
        List.mem_filter.2 ⟨hf0, by simpa using hlt0⟩
      rcases hsort : (s.floorRequests.filter
          (fun f => f < s.currentFloor)).insertionSort (· ≥ ·) with _ | ⟨b, brest⟩
      · exact absurd hsort
          (VE.insertionSort_ne_nil _ _ (List.ne_nil_of_mem hfb))
      obtain ⟨hbmem, hble⟩ := VE.sortedDesc_head _ b brest hsort
      have hbmem' := List.mem_filter.1 hbmem
      have hbcur : b < s.currentFloor := by simpa using hbmem'.2
      have hupd : VE.updateTargetFloor s =
          VE.moveToTargetFloor { s with direction := .DOWN, targetFloor := some b } := by
        unfold VE.updateTargetFloor
        rw [if_neg (by simp [hne]), if_neg (by simp [hm]), if_neg hguard3]
        simp only [hdir]
        rw [hfilnil]
        dsimp only [List.insertionSort]
        rw [hsort]
      refine ⟨b, ?_, ?_, hbmem'.1, hbcur, ?_⟩
      · rw [hupd, VE.moveToTargetFloor_targetFloor]
      · rw [hupd, VE.moveToTargetFloor_direction _ b rfl]
        rw [if_neg (fun h => (ne_of_gt hbcur) h),
          if_neg (by exact not_lt.2 (le_of_lt hbcur))]
      · intro f hf hcf
        exact hble f (List.mem_filter.2 ⟨hf, by simpa using hcf⟩)
  · intro hdir
    constructor
    · rintro ⟨f0, hf0, hlt0⟩
      have hne : s.floorRequests ≠ [] := List.ne_nil_of_mem hf0
      have hfb : f0 ∈ s.floorRequests.filter (fun f => f < s.currentFloor) :=
        List.mem_filter.2 ⟨hf0, by simpa using hlt0⟩
      rcases hsort : (s.floorRequests.filter
          (fun f => f < s.currentFloor)).insertionSort (· ≥ ·) with _ | ⟨b, brest⟩
      · exact absurd hsort
          (VE.insertionSort_ne_nil _ _ (List.ne_nil_of_mem hfb))
      obtain ⟨hbmem, hble⟩ := VE.sortedDesc_head _ b brest hsort
      have hbmem' := List.mem_filter.1 hbmem
      have hbcur : b < s.currentFloor := by simpa using hbmem'.2
      have hupd : VE.updateTargetFloor s =
          VE.moveToTargetFloor { s with targetFloor := some b } := by
        unfold VE.updateTargetFloor
        rw [if_neg (by simp [hne]), if_neg (by simp [hm]), if_neg hguard3]
        simp only [hdir]
        rw [hsort]
      refine ⟨b, ?_, ?_, hbmem'.1, hbcur, ?_⟩
      · rw [hupd, VE.moveToTargetFloor_targetFloor]
      · rw [hupd, VE.moveToTargetFloor_direction _ b rfl]
        rw [if_neg (fun h => (ne_of_gt hbcur) h),
          if_neg (by exact not_lt.2 (le_of_lt hbcur))]
      · intro f hf hcf
        exact hble f (List.mem_filter.2 ⟨hf, by simpa using hcf⟩)
    · rintro ⟨hnone, f0, hf0, hlt0⟩
      have hne : s.floorRequests ≠ [] := List.ne_nil_of_mem hf0
      have hfilnil : s.floorRequests.filter (fun f => f < s.currentFloor) = [] := by
        rw [List.filter_eq_nil_iff]
        intro f hf
        simpa using hnone f hf
      have hfa : f0 ∈ s.floorRequests.filter (fun f => s.currentFloor < f) :=
        List.mem_filter.2 ⟨hf0, by simpa using hlt0⟩
      rcases hsort : (s.floorRequests.filter
          (fun f => s.currentFloor < f)).insertionSort (· ≤ ·) with _ | ⟨a, arest⟩
      · exact absurd hsort
          (VE.insertionSort_ne_nil _ _ (List.ne_nil_of_mem hfa))
      obtain ⟨hamem, hale⟩ := VE.sortedAsc_head _ a arest hsort
      have hamem' := List.mem_filter.1 hamem
      have hacur : s.currentFloor < a := by simpa using hamem'.2
      have hupd : VE.updateTargetFloor s =
          VE.moveToTargetFloor { s with direction := .UP, targetFloor := some a } := by
        unfold VE.updateTargetFloor
        rw [if_neg (by simp [hne]), if_neg (by simp [hm]), if_neg hguard3]
        simp only [hdir]
        rw [hfilnil]
        dsimp only [List.insertionSort]
        rw [hsort]
      refine ⟨a, ?_, ?_, hamem'.1, hacur, ?_⟩
      · rw [hupd, VE.moveToTargetFloor_targetFloor]
      · rw [hupd, VE.moveToTargetFloor_direction _ a rfl]
        rw [if_neg (fun h => (ne_of_lt hacur) h), if_pos hacur]
      · intro f hf hcf
        exact hale f (List.mem_filter.2 ⟨hf, by simpa using hcf⟩)

/-- Witness for C1: the car at floor 4 moving UP with requests 6 and 1
continues UP to floor 6 (the spec's directional-continuation example). -/
theorem updateTargetFloor_directional_continuation_witness :
    ∃ a, (VE.updateTargetFloor c1s).targetFloor = some a ∧
      (VE.updateTargetFloor c1s).direction = .UP ∧
      a ∈ c1s.floorRequests ∧ c1s.currentFloor < a ∧
      ∀ f ∈ c1s.floorRequests, c1s.currentFloor < f → a ≤ f :=
  ((updateTargetFloor_directional_continuation c1s rfl (Or.inl rfl)).1 rfl).1
    ⟨6, by decide, by decide⟩

namespace P5

@[simp] theorem openDoorV_targetFloor (s : EState) :
    (openDoor s).targetFloor = s.targetFloor := by
  unfold openDoor; split <;> rfl

@[simp] theorem openDoorV_direction (s : EState) :
    (openDoor s).direction = s.direction := by
  unfold openDoor; split <;> rfl

@[simp] theorem openDoor_inMotion (s : EState) :
    (openDoor s).inMotion = s.inMotion := by
  unfold openDoor; split <;> rfl

@[simp] theorem closeDoorV_direction (s : EState) :
    (closeDoor s).direction = s.direction := by
  unfold closeDoor; split <;> rfl

@[simp] theorem closeDoor_inMotion (s : EState) :
    (closeDoor s).inMotion = s.inMotion := by
  unfold closeDoor; split <;> rfl

@[simp] theorem moveToTargetFloorV_targetFloor (s : EState) :
    (moveToTargetFloor s).targetFloor = s.targetFloor := by
  unfold moveToTargetFloor
  rcases h : s.targetFloor with _ | t
  · simp [h]
  · dsimp only
    split
    · simp [h]
    · split
      · split <;> simp [h]
      · simp [h]

theorem moveToTargetFloor_noDirIdle (s : EState) (h : NoDirIdle s) :
    NoDirIdle (moveToTargetFloor s) := by
  unfold moveToTargetFloor
  rcases s.targetFloor with _ | t
  · exact h
  · dsimp only
    split
    · exact h
    · split
      · split
        · intro hm
          rw [openDoor_inMotion] at hm
          rw [openDoorV_direction]
          exact h hm
        · exact h
      · intro hm
        simp at hm

theorem updateTargetFloor_noDirIdle (cfg : Config) (s : EState) (h : NoDirIdle s) :
    NoDirIdle (updateTargetFloor cfg s) := by
  unfold updateTargetFloor
  split
  · exact h
  · split
    · intro _; exact h (by assumption)
    · split
      · exact moveToTargetFloor_noDirIdle _ (fun hm => h hm)
      · split
        · exact moveToTargetFloor_noDirIdle _ (fun hm => h hm)
        · split
          · split
            · exact h
            · exact moveToTargetFloor_noDirIdle _ (fun hm => h hm)
          · exact moveToTargetFloor_noDirIdle _ (fun hm => h hm)

/-- The variant's `requestFloor` preserves the idle/no-direction invariant:
its result state is a pending-queue push on top of an `updateTargetFloor`
output. -/
theorem requestFloor_noDirIdle (cfg : Config) (s : EState) (fn : Int)
    (rt : Option String) (s' : EState) (b : Bool)
    (hok : requestFloor cfg s fn rt = .ok (s', b)) (h : NoDirIdle s) :
    NoDirIdle s' := by
  unfold requestFloor at hok
  split at hok
  · cases hok
  · dsimp only at hok
    (repeat' split at hok) <;>
      (rw [Except.ok.injEq, Prod.mk.injEq] at hok
       obtain ⟨hs', -⟩ := hok
       subst hs'
       intro hm
       apply updateTargetFloor_noDirIdle cfg
       · exact fun hm2 => h hm2
       · exact hm)

theorem step_noDirIdle (cfg : Config) (s : EState) (e : Ev) (h : NoDirIdle s) :
    NoDirIdle (step cfg s e) := by
  cases e with
  | req fn rt =>
      rcases hok : requestFloor cfg s fn rt with msg | ⟨s', b⟩
      · simp only [step, hok]
        exact h
      · simp only [step, hok]
        exact requestFloor_noDirIdle cfg s fn rt s' b hok h
  | openDoorCall =>
      intro hm
      simp only [step] at hm ⊢
      rw [openDoor_inMotion] at hm
      rw [openDoorV_direction]
      exact h hm
  | closeDoorCall =>
      intro hm
      simp only [step] at hm ⊢
      rw [closeDoor_inMotion] at hm
      rw [closeDoorV_direction]
      exact h hm
  | doorOpened =>
      simp only [step]
      split
      · intro hm; exact h hm
      · exact h
  | doorClosed =>
      simp only [step]
      split
      · intro hm; exact h hm
      · exact h
  | arrive =>
      simp only [step]
      split
      · unfold arriveBody
        rcases s.targetFloor with _ | t
        · exact h
        · intro _
          rw [openDoorV_direction]
      · exact h
  | dispatchTick =>
      simp only [step]
      exact updateTargetFloor_noDirIdle cfg s h
  | emergency b =>
      simp only [step]
      unfold setEmergencyState
      dsimp only
      split
      · intro _; rfl
      · exact h
  | obstruct b =>
      simp only [step]
      unfold setDoorObstruction
      dsimp only
      split
      · intro hm
        rw [openDoor_inMotion] at hm
        rw [openDoorV_direction]
        exact h hm
      · exact h

end P5

/-- C3: on a dispatch decision of the prioritization-capable car variant when
no current direction is established (every reachable non-moving state has
direction STATIONARY, which is when dispatch decisions run), a
`bot-priority` ("robot-priority") car with a robot-origin pending request
targets that pending request's head floor immediately, bypassing
distance-based selection; symmetrically for `tenant-priority`. -/
theorem priority_override_no_direction (cfg : P5.Config) :
    (∀ s : P5.EState, P5.Reachable cfg s → s.inMotion = false →
      s.direction = .STATIONARY) ∧
    (∀ s : P5.EState, cfg.prioritizationMode = "bot-priority" →
      s.inMotion = false → s.direction = .STATIONARY → s.floorRequests ≠ [] →
      ∀ f rest, s.pendingBotRequests = f :: rest →
        (P5.updateTargetFloor cfg s).targetFloor = some f) ∧
    (∀ s : P5.EState, cfg.prioritizationMode = "tenant-priority" →
      s.inMotion = false → s.direction = .STATIONARY → s.floorRequests ≠ [] →
      ∀ f rest, s.pendingTenantRequests = f :: rest →
        (P5.updateTargetFloor cfg s).targetFloor = some f) := by
  refine ⟨?_, ?_, ?_⟩
  · rintro s ⟨evs, hrun⟩
    subst hrun
    exact foldl_inv (P5.step cfg) P5.NoDirIdle
      (fun x e hx => P5.step_noDirIdle cfg x e hx) evs P5.initState (fun _ => rfl)
  · intro s hmode hm hd hfr f rest hpb
    unfold P5.updateTargetFloor
    rw [if_neg (by simp [hm]), if_neg (by simp [hfr]),
      if_pos (by exact ⟨hmode, by simp [hpb]⟩)]
    rw [P5.moveToTargetFloorV_targetFloor]
    simp [hpb]
  · intro s hmode hm hd hfr f rest hpt
    unfold P5.updateTargetFloor
    rw [if_neg (by simp [hm]), if_neg (by simp [hfr]),
      if_neg (by simp [hmode]), if_pos (by exact ⟨hmode, by simp [hpt]⟩)]
    rw [P5.moveToTargetFloorV_targetFloor]
    simp [hpt]

/-- Witness for C3 at the spec's priority-mode example: variant car idle at
floor 5 in robot-priority mode with robot request 8 ahead of tenant request 3
targets floor 8. -/
theorem priority_override_no_direction_witness :
    (P5.updateTargetFloor c3cfg c3s).targetFloor = some 8 :=
  (priority_override_no_direction c3cfg).2.1 c3s rfl rfl rfl (by decide) 8 [] rfl

namespace VE

theorem mem_delReq (l : List Int) (f g : Int) (h : f ∈ l) (hne : f ≠ g) :
    f ∈ delReq l g := by
  unfold delReq
  exact List.mem_filter.2 ⟨h, by simpa using hne⟩

/-- Folding occupant removals can drop a surviving occupant's destination only
at the (unchanged) current floor. -/
theorem removeFold_keep (l : List Occupant) :
    ∀ (s : EState) (o : Occupant),
      o ∈ (l.foldl (fun st o => removeOccupant st o.id) s).occupants →
      (o.destination ∈ s.floorRequests ∨ o.destination = s.currentFloor) →
      (o.destination ∈ (l.foldl (fun st o => removeOccupant st o.id) s).floorRequests ∨
        o.destination = (l.foldl (fun st o => removeOccupant st o.id) s).currentFloor) := by
  induction l with
  | nil => intro s o _ hd; exact hd
  | cons x l ih =>
      intro s o ho hd
      rw [List.foldl_cons] at ho ⊢
      refine ih (removeOccupant s x.id) o ho ?_
      rcases hd with hd | hd
      · have hmem : o ∈ (removeOccupant s x.id).occupants := removeFold_occupants_sub l _ o ho
        rcases removeOccupant_keep s x.id o hmem hd with h | h
        · exact Or.inl h
        · exact Or.inr (by rw [removeOccupant_currentFloor]; exact h)
      · exact Or.inr (by rw [removeOccupant_currentFloor]; exact hd)

/-- The door-open completion drops an occupant's destination from the request
set only when it is the current floor. -/
theorem doorOpenedBody_keep (s : EState) (o : Occupant)
    (ho : o ∈ s.occupants) (hd : o.destination ∈ s.floorRequests) :
    o.destination ∈ (doorOpenedBody s).floorRequests ∨
      o.destination = s.currentFloor := by
  by_cases hc : o.destination = s.currentFloor
  · exact Or.inr hc
  · have hkeep := cleanupStaleRequests_keep
      { s with doorState := DoorSt.OPEN,
               floorRequests := delReq s.floorRequests s.currentFloor } o
      ho (mem_delReq _ _ _ hd hc)
    rcases hkeep with h | h
    · exact Or.inl h
    · exact Or.inr h

/-- Arrival deletes only the new current floor from the request set. -/
theorem arriveBody_keep (s : EState) (o : Occupant)
    (_ho : o ∈ s.occupants) (hd : o.destination ∈ s.floorRequests) :
    o.destination ∈ (arriveBody s).floorRequests ∨
      o.destination = (arriveBody s).currentFloor := by
  unfold arriveBody
  rcases s.targetFloor with _ | t
  · exact Or.inl hd
  · dsimp only
    by_cases hc : o.destination = t
    · refine Or.inr ?_
      rw [openDoor_currentFloor]
      exact hc
    · refine Or.inl (mem_delReq _ _ _ ?_ ?_)
      · rw [openDoor_floorRequests]
        exact hd
      · rw [openDoor_currentFloor]
        exact hc

/-- An occupant of the post-`setOccupantDestination` list either was already
aboard unchanged or carries the newly assigned destination. -/
theorem setOccupantDestination_mem (s : EState) (oid : String) (d : Int)
    (o : Occupant) (ho : o ∈ (setOccupantDestination s oid d).occupants) :
    o ∈ s.occupants ∨ o.destination = d := by
  unfold setOccupantDestination at ho
  split at ho
  · simp only at ho
    obtain ⟨o', ho', hgo⟩ := List.mem_map.1 ho
    by_cases hid : o'.id = oid
    · rw [if_pos hid] at hgo
      right
      rw [← hgo]
    · rw [if_neg hid] at hgo
      left
      rw [← hgo]
      exact ho'
  · exact Or.inl ho

theorem setOccupantDestination_fr_mono (s : EState) (oid : String) (d : Int)
    (f : Int) (h : f ∈ s.floorRequests) :
    f ∈ (setOccupantDestination s oid d).floorRequests := by
  unfold setOccupantDestination
  split
  · exact mem_addReq_of_mem d h
  · exact h

theorem setOccupantDestination_new_mem (s : EState) (oid : String) (d : Int)
    (hfound : s.occupants.any (fun o => o.id == oid) = true) :
    d ∈ (setOccupantDestination s oid d).floorRequests := by
  unfold setOccupantDestination
  rw [if_pos hfound]
  exact mem_addReq_self _ d

end VE

/-- C5 counterexample: a timer-consistent reachable trace (tenant boards at
floor 1 with destination 1; a later door-open completion deletes floor 1 from
the requests) leaves occupant "A" aboard with destination 1 while
`floorRequests` no longer contains 1 — the occupant has not alighted. -/
theorem destination_membership_cex :
    VE.Reachable c5cfg c5state ∧
    c5state.occupants = [⟨"A", "tenant", 1, 1⟩] ∧
    (1 : Int) ∉ c5state.floorRequests :=
  ⟨⟨c5trace, rfl⟩, by decide, by decide⟩

/-- C5 amended: an occupant's destination is in `floorRequests` from the
moment of boarding, and it can leave `floorRequests` only at a step after
which it equals the car's current floor (the service point: arrival or
door-open there).  After that service point the request may be absent while
the occupant is still briefly aboard awaiting the delayed removal, so
membership is not guaranteed all the way until the occupant alights. -/
theorem destination_membership_until_service (cfg : VE.Config) (s : VE.EState)
    (e : VE.Ev) (o : VE.Occupant) (ho : o ∈ (VE.step cfg s e).occupants) :
    (o ∈ s.occupants → o.destination ∈ s.floorRequests →
      (o.destination ∈ (VE.step cfg s e).floorRequests ∨
        o.destination = (VE.step cfg s e).currentFloor)) ∧
    (o ∉ s.occupants → o.destination ∈ (VE.step cfg s e).floorRequests) := by
  cases e with
  | req fn rt oid dest gen rnd =>
      rcases VE.requestFloor_shape cfg s fn rt oid dest gen rnd with hq | ⟨hq, -⟩ | ⟨s1, hq, hs1⟩
      · rw [VE.step_req_of_error cfg s fn rt oid dest gen rnd _ hq] at ho ⊢
        exact ⟨fun _ hd => Or.inl hd, fun hno => absurd ho hno⟩
      · rw [VE.step_req_of_ok cfg s fn rt oid dest gen rnd _ _ hq] at ho ⊢
        exact ⟨fun _ hd => Or.inl hd, fun hno => absurd ho hno⟩
      · rcases hp : VE.requestFloorRest s1 fn rt oid dest gen with ⟨s2, b2⟩
        rw [hp] at hq
        rw [VE.step_req_of_ok cfg s fn rt oid dest gen rnd _ _ hq] at ho ⊢
        have hocc : s2.occupants = s1.occupants := by
          have := VE.requestFloorRest_occupants s1 fn rt oid dest gen
          rw [hp] at this; exact this
        have hfr : s2.floorRequests = VE.addReq s1.floorRequests fn := by
          have := VE.requestFloorRest_floorRequests s1 fn rt oid dest gen
          rw [hp] at this; exact this
        rw [hocc] at ho
        constructor
        · intro hmem hd
          refine Or.inl ?_
          rw [hfr]
          refine VE.mem_addReq_of_mem fn ?_
          rcases hs1 with ⟨h1, -⟩ | h1 | h1 <;> subst h1
          · rcases VE.addOccupant_cases s (oid.getD gen) (rt.getD "") dest rnd with
              ⟨-, he⟩ | ⟨-, d, he⟩ <;> rw [he]
            · exact hd
            · exact VE.mem_addReq_of_mem d hd
          · exact hd
          · exact hd
        · intro hno
          rcases hs1 with ⟨h1, -⟩ | h1 | h1 <;> subst h1
          · rcases VE.addOccupant_cases s (oid.getD gen) (rt.getD "") dest rnd with
              ⟨-, he⟩ | ⟨-, d, he⟩
            · rw [he] at ho
              exact absurd ho hno
            · rw [he] at ho
              rcases List.mem_append.1 ho with h | h
              · exact absurd h hno
              · have hod : o.destination = d := by
                  rw [List.mem_singleton.1 h]
                rw [hfr, he]
                refine VE.mem_addReq_of_mem fn ?_
                rw [hod]
                exact VE.mem_addReq_self _ d
          · exact absurd ho hno
          · exact absurd ho hno
  | addOcc oid ty dest rnd =>
      simp only [VE.step] at ho ⊢
      rcases VE.addOccupant_cases s oid ty dest rnd with ⟨-, he⟩ | ⟨-, d, he⟩
      · rw [he] at ho ⊢
        exact ⟨fun _ hd => Or.inl hd, fun hno => absurd ho hno⟩
      · rw [he] at ho ⊢
        constructor
        · intro _ hd
          exact Or.inl (VE.mem_addReq_of_mem d hd)
        · intro hno
          rcases List.mem_append.1 ho with h | h
          · exact absurd h hno
          · have hod : o.destination = d := by
              rw [List.mem_singleton.1 h]
            rw [hod]
            exact VE.mem_addReq_self _ d
  | removeOcc oid =>
      simp only [VE.step] at ho ⊢
      refine ⟨fun _ hd => ?_, fun hno => ?_⟩
      · rcases VE.removeOccupant_keep s oid o ho hd with h | h
        · exact Or.inl h
        · exact Or.inr (by rw [VE.removeOccupant_currentFloor]; exact h)
      · exact absurd (VE.removeOccupant_occupants_sub s oid o ho) hno
  | setDest oid d =>
      simp only [VE.step] at ho ⊢
      refine ⟨fun _ hd => ?_, fun hno => ?_⟩
      · exact Or.inl (VE.setOccupantDestination_fr_mono s oid d _ hd)
      · rcases VE.setOccupantDestination_mem s oid d o ho with h | h
        · exact absurd h hno
        · rw [h]
          unfold VE.setOccupantDestination at ho ⊢
          split at ho
          · rw [if_pos (by assumption)]
            exact VE.mem_addReq_self _ d
          · exact absurd ho hno
  | doorOpened =>
      simp only [VE.step] at ho ⊢
      split at ho <;> rename_i hg
      · rw [if_pos hg]
        refine ⟨fun hmem hd => ?_, fun hno => ?_⟩
        · rcases VE.doorOpenedBody_keep s o hmem hd with h | h
          · exact Or.inl h
          · exact Or.inr (by rw [VE.doorOpenedBody_currentFloor]; exact h)
        · exact absurd (by rw [← VE.doorOpenedBody_occupants s]; exact ho) hno
      · rw [if_neg hg]
        exact ⟨fun _ hd => Or.inl hd, fun hno => absurd ho hno⟩
  | doorClosed =>
      simp only [VE.step] at ho ⊢
      split at ho <;> rename_i hg
      · rw [if_pos hg]
        refine ⟨fun _ hd => Or.inl (by rw [VE.doorClosedBody_floorRequests]; exact hd),
          fun hno => ?_⟩
        exact absurd (by rw [← VE.doorClosedBody_occupants s]; exact ho) hno
      · rw [if_neg hg]
        exact ⟨fun _ hd => Or.inl hd, fun hno => absurd ho hno⟩
  | doorTimer =>
      simp only [VE.step] at ho ⊢
      split at ho <;> rename_i hg
      · rw [if_pos hg]
        refine ⟨fun _ hd => Or.inl (by rw [VE.closeDoor_floorRequests]; exact hd),
          fun hno => ?_⟩
        exact absurd (by rw [← VE.closeDoor_occupants s]; exact ho) hno
      · rw [if_neg hg]
        exact ⟨fun _ hd => Or.inl hd, fun hno => absurd ho hno⟩
  | delayedStart =>
      simp only [VE.step] at ho ⊢
      split at ho <;> rename_i hg
      · rw [if_pos hg]
        exact ⟨fun _ hd => Or.inl hd, fun hno => absurd ho hno⟩
      · rw [if_neg hg]
        exact ⟨fun _ hd => Or.inl hd, fun hno => absurd ho hno⟩
  | arrive =>
      simp only [VE.step] at ho ⊢
      split at ho <;> rename_i hg
      · rw [if_pos hg]
        refine ⟨fun hmem hd => VE.arriveBody_keep s o hmem hd, fun hno => ?_⟩
        exact absurd (by rw [← VE.arriveBody_occupants s]; exact ho) hno
      · rw [if_neg hg]
        exact ⟨fun _ hd => Or.inl hd, fun hno => absurd ho hno⟩
  | exitTick =>
      simp only [VE.step] at ho ⊢
      refine ⟨fun _ hd => ?_, fun hno => ?_⟩
      · exact VE.removeFold_keep _ s o ho (Or.inl hd)
      · exact absurd (VE.removeFold_occupants_sub _ s o ho) hno
  | dispatchTick =>
      simp only [VE.step] at ho ⊢
      rw [VE.updateTargetFloor_occupants] at ho
      refine ⟨fun _ hd => Or.inl (by rw [VE.updateTargetFloor_floorRequests]; exact hd),
        fun hno => absurd ho hno⟩
  | emergency b =>
      simp only [VE.step] at ho ⊢
      rw [VE.setEmergencyState_occupants] at ho
      refine ⟨fun _ hd => Or.inl (by rw [VE.setEmergencyState_floorRequests]; exact hd),
        fun hno => absurd ho hno⟩
  | obstruct b =>
      simp only [VE.step] at ho ⊢
      rw [VE.setDoorObstruction_occupants] at ho
      refine ⟨fun _ hd => Or.inl (by rw [VE.setDoorObstruction_floorRequests]; exact hd),
        fun hno => absurd ho hno⟩

/-- Witness for C5 amended at a concrete car holding occupant "A" bound for
floor 3 across a door-timer event. -/
theorem destination_membership_until_service_witness :
    (⟨"A", "tenant", 1, 3⟩ : VE.Occupant).destination ∈
        (VE.step c5cfg c5ws VE.Ev.doorTimer).floorRequests ∨
      (⟨"A", "tenant", 1, 3⟩ : VE.Occupant).destination =
        (VE.step c5cfg c5ws VE.Ev.doorTimer).currentFloor :=
  (destination_membership_until_service c5cfg c5ws VE.Ev.doorTimer
    ⟨"A", "tenant", 1, 3⟩ (by decide)).1 (by decide) (by decide)
